import Mathlib

/-!
# Verification of the 100menvsgorilla multiplayer session layer

Shallow embedding of the server (`src/server/server.js`) and of the client
multiplayer manager (`src/client/src/js/multiplayer/MultiplayerManager.js`).

The server keeps free-standing mutable maps (`players`, `lobbies`,
`playerLobbyMap`, `clientSockets`), a global `hostId`, an `activeGames` set
and a single global `gameEntities.gorilla` record.  JavaScript objects used
as string-keyed dictionaries are embedded as association lists; `delete`
removes the key, assignment inserts or overwrites it.  Randomness
(`Math.random()`-derived indices, generated lobby ids) is passed in as an
explicit parameter of the corresponding operation.  Socket.io emissions are
returned as an explicit list of (target, message) pairs; socket.io rooms are
tracked in the state, mirroring `socket.join` / `socket.leave` and the
automatic removal from all rooms on disconnect.

Numeric payload fields (positions, rotations) are embedded as `Int`: the
handlers under verification never do arithmetic on them, they only store,
compare and forward them.
-/

namespace Gorilla

/-! ## Association lists (JavaScript objects used as dictionaries) -/

/-- Lookup of a key in a JS-object-as-dictionary. -/
def alget {α : Type} (k : String) : List (String × α) → Option α
  | [] => none
  | (k', v) :: rest => if k' = k then some v else alget k rest

/-- `obj[k] = v`: insert or overwrite. -/
def alset {α : Type} (k : String) (v : α) : List (String × α) → List (String × α)
  | [] => [(k, v)]
  | (k', v') :: rest => if k' = k then (k, v) :: rest else (k', v') :: alset k v rest

/-- `delete obj[k]`. -/
def aldel {α : Type} (k : String) : List (String × α) → List (String × α)
  | [] => []
  | (k', v') :: rest => if k' = k then aldel k rest else (k', v') :: aldel k rest

/-! ## Server data model -/

/-- A position payload (`{x, y, z}`). -/
structure Pos where
  x : Int
  y : Int
  z : Int
deriving DecidableEq, Repr

/-- A rotation payload (`{y}`). -/
structure Rot where
  y : Int
deriving DecidableEq, Repr

/-- An entry of `lobby.players`: `{id, name}`. -/
structure LobbyMember where
  id : String
  name : String
deriving DecidableEq, Repr

/-- A lobby record, as created by the `createLobby` handler.  (The
`createdAt` timestamp is log-only and omitted.) -/
structure SLobby where
  id : String
  name : String
  hostId : String
  players : List LobbyMember
  maxPlayers : Nat
  inGame : Bool
deriving DecidableEq, Repr

/-- An entry of the server's `players` map, as created by the `join`
handler. -/
structure SPlayer where
  id : String
  name : String
  position : Pos
  rotation : Rot
  color : Nat
  isGorilla : Bool
deriving DecidableEq, Repr

/-- One element of the `roles` array built by `startGame`. -/
structure RoleEntry where
  id : String
  name : String
  isGorilla : Bool
deriving DecidableEq, Repr

/-- The member ids of a lobby, in join order. -/
def memberIds (lobby : SLobby) : List String :=
  lobby.players.map (fun p => p.id)

/-- The whole mutable server state: the free-standing maps of `server.js`
plus socket.io book-keeping (connected sockets and rooms). -/
structure ServerState where
  players : List (String × SPlayer)
  lobbies : List (String × SLobby)
  playerLobbyMap : List (String × String)
  sockets : List String
  rooms : List (String × List String)
  hostId : Option String
  activeGames : List String
  gorillaPlayerId : Option String
deriving DecidableEq, Repr

/-- The state at process start: every map empty, no host, no gorilla. -/
def initState : ServerState :=
  { players := [], lobbies := [], playerLobbyMap := [], sockets := [],
    rooms := [], hostId := none, activeGames := [], gorillaPlayerId := none }

/-! ## Emissions -/

/-- Where an emission goes: `socket.emit` (one socket), `io.to(room).emit`
(a room), `socket.broadcast.emit` (every connected socket but the sender),
`mainNamespace.emit` (every connected socket). -/
inductive Target where
  | toSocket (sid : String)
  | toRoom (room : String)
  | broadcastExcept (sid : String)
  | allClients
deriving DecidableEq, Repr

/-- The messages the modelled handlers emit. -/
inductive Msg where
  | lobbyError (text : String)
  | lobbyJoined (lobby : SLobby)
  | lobbyUpdated (lobby : SLobby)
  | lobbiesList
  | gameStarted (lobbyId : String) (players : List LobbyMember)
      (roles : List RoleEntry) (gorillaId : String) (gorillaName : String)
  | hostAssigned
  | existingPlayers (ps : List SPlayer)
  | playerJoined (p : SPlayer)
  | playerMoved (id : String) (position : Pos) (rotation : Rot)
  | playerLeft (id : String)
deriving DecidableEq, Repr

/-- A single emission. -/
structure Emit where
  target : Target
  msg : Msg
deriving DecidableEq, Repr

/-- The set of sockets a target delivers to, in a given state. -/
def deliveredTo (st : ServerState) : Target → List String
  | Target.toSocket sid => [sid]
  | Target.toRoom room => (alget room st.rooms).getD []
  | Target.broadcastExcept sid => st.sockets.filter (fun s => s ≠ sid)
  | Target.allClients => st.sockets

/-! ## Room book-keeping (socket.io) -/

/-- `socket.join(room)`. -/
def roomJoin (room sid : String) (rooms : List (String × List String)) :
    List (String × List String) :=
  let cur := (alget room rooms).getD []
  if sid ∈ cur then rooms else alset room (cur ++ [sid]) rooms

/-- `socket.leave(room)`. -/
def roomLeave (room sid : String) (rooms : List (String × List String)) :
    List (String × List String) :=
  alset room (((alget room rooms).getD []).filter (fun s => s ≠ sid)) rooms

/-- Socket.io removes a disconnecting socket from every room. -/
def roomsDropSocket (sid : String) (rooms : List (String × List String)) :
    List (String × List String) :=
  rooms.map (fun p => (p.1, p.2.filter (fun s => s ≠ sid)))

/-! ## Server handlers -/

/-- The fixed palette of `randomColor` in `server.js`; the function picks
`colors[Math.floor(Math.random() * colors.length)]`, so the (uniformly
random) index is taken as an explicit parameter. -/
def colorsPalette : List Nat :=
  [0xff0000, 0x00ff00, 0x0000ff, 0xffff00, 0xff00ff, 0x00ffff, 0xff8000]

/-- `randomColor()` with its random index made explicit.  The JS index
`Math.floor(Math.random() * 7)` is always `< 7`, so the `getD` default is
never used there. -/
def randomColor (randomIndex : Nat) : Nat :=
  (colorsPalette.get? randomIndex).getD 0

/-- The `roles` array of `startGame`:
`lobby.players.map((player, index) => ({id, name, isGorilla: index === gorillaPlayerIndex}))`,
written with the running index explicit. -/
def buildRoles (players : List LobbyMember) (i gorillaIdx : Nat) : List RoleEntry :=
  match players with
  | [] => []
  | p :: rest => ⟨p.id, p.name, i == gorillaIdx⟩ :: buildRoles rest (i + 1) gorillaIdx

/-- The `createLobby` handler.  `newLobbyId` stands for the random id
produced by `generateLobbyId()`. -/
def createLobby (sid : String) (name : Option String) (maxPlayers : Option Nat)
    (playerName : String) (newLobbyId : String) (st : ServerState) :
    ServerState × List Emit :=
  if (alget sid st.playerLobbyMap).isSome then
    (st, [⟨Target.toSocket sid, Msg.lobbyError "You are already in a lobby. Leave it first."⟩])
  else
    let lobby : SLobby :=
      { id := newLobbyId, name := name.getD (playerName ++ "\x27s Lobby"),
        hostId := sid, players := [⟨sid, playerName⟩],
        maxPlayers := maxPlayers.getD 4, inGame := false }
    ({ st with
       lobbies := alset newLobbyId lobby st.lobbies,
       playerLobbyMap := alset sid newLobbyId st.playerLobbyMap,
       rooms := roomJoin newLobbyId sid st.rooms },
     [⟨Target.toSocket sid, Msg.lobbyJoined lobby⟩,
      ⟨Target.toRoom newLobbyId, Msg.lobbyUpdated lobby⟩,
      ⟨Target.allClients, Msg.lobbiesList⟩])

/-- The `joinLobby` handler. -/
def joinLobby (sid lobbyId playerName : String) (st : ServerState) :
    ServerState × List Emit :=
  if (alget sid st.playerLobbyMap).isSome then
    (st, [⟨Target.toSocket sid, Msg.lobbyError "You are already in a lobby. Leave it first."⟩])
  else
    match alget lobbyId st.lobbies with
    | none => (st, [⟨Target.toSocket sid, Msg.lobbyError "Lobby not found."⟩])
    | some lobby =>
      if lobby.maxPlayers ≤ lobby.players.length then
        (st, [⟨Target.toSocket sid, Msg.lobbyError "Lobby is full."⟩])
      else if lobby.inGame then
        (st, [⟨Target.toSocket sid, Msg.lobbyError "Game already in progress."⟩])
      else
        let lobby' := { lobby with players := lobby.players ++ [⟨sid, playerName⟩] }
        ({ st with
            lobbies := alset lobbyId lobby' st.lobbies,
            playerLobbyMap := alset sid lobbyId st.playerLobbyMap,
            rooms := roomJoin lobbyId sid st.rooms },
         [⟨Target.toSocket sid, Msg.lobbyJoined lobby'⟩,
          ⟨Target.toRoom lobbyId, Msg.lobbyUpdated lobby'⟩,
          ⟨Target.allClients, Msg.lobbiesList⟩])

/-- The `leaveLobby` handler. -/
def leaveLobby (sid : String) (st : ServerState) : ServerState × List Emit :=
  match alget sid st.playerLobbyMap with
  | none => (st, [])
  | some lobbyId =>
    match alget lobbyId st.lobbies with
    | none => (st, [])
    | some lobby =>
      let remaining := lobby.players.filter (fun p => p.id ≠ sid)
      let map' := aldel sid st.playerLobbyMap
      let rooms' := roomLeave lobbyId sid st.rooms
      match remaining with
      | [] =>
        let lobby' := { lobby with players := [] }
        ({ st with
           lobbies := aldel lobbyId st.lobbies,
           playerLobbyMap := map',
           rooms := rooms' },
         [⟨Target.toRoom lobbyId, Msg.lobbyUpdated lobby'⟩,
          ⟨Target.allClients, Msg.lobbiesList⟩])
      | first :: _ =>
        if lobby.hostId = sid then
          let lobby' := { lobby with players := remaining, hostId := first.id }
          let hostNotify : List Emit :=
            if first.id ∈ st.sockets then
              [⟨Target.toSocket first.id, Msg.lobbyUpdated lobby'⟩]
            else []
          ({ st with
             lobbies := alset lobbyId lobby' st.lobbies,
             playerLobbyMap := map',
             rooms := rooms' },
           hostNotify ++
           [⟨Target.toRoom lobbyId, Msg.lobbyUpdated lobby'⟩,
            ⟨Target.allClients, Msg.lobbiesList⟩])
        else
          let lobby' := { lobby with players := remaining }
          ({ st with
             lobbies := alset lobbyId lobby' st.lobbies,
             playerLobbyMap := map',
             rooms := rooms' },
           [⟨Target.toRoom lobbyId, Msg.lobbyUpdated lobby'⟩,
            ⟨Target.allClients, Msg.lobbiesList⟩])

/-- The `kickPlayer` handler. -/
def kickPlayer (sid targetId : String) (st : ServerState) :
    ServerState × List Emit :=
  match alget sid st.playerLobbyMap with
  | none => (st, [])
  | some lobbyId =>
    match alget lobbyId st.lobbies with
    | none => (st, [])
    | some lobby =>
      if lobby.hostId ≠ sid then
        (st, [⟨Target.toSocket sid, Msg.lobbyError "Only the host can kick players."⟩])
      else if ¬ (lobby.players.any (fun p => p.id == targetId)) then
        (st, [⟨Target.toSocket sid, Msg.lobbyError "Player not found in lobby."⟩])
      else
        let lobby' := { lobby with players := lobby.players.filter (fun p => p.id ≠ targetId) }
        let kickedNotify : List Emit :=
          if targetId ∈ st.sockets then
            [⟨Target.toSocket targetId, Msg.lobbyError "You were kicked from the lobby."⟩]
          else []
        ({ st with
           lobbies := alset lobbyId lobby' st.lobbies,
           playerLobbyMap := aldel targetId st.playerLobbyMap,
           rooms := if targetId ∈ st.sockets then roomLeave lobbyId targetId st.rooms
             else st.rooms },
         kickedNotify ++
         [⟨Target.toRoom lobbyId, Msg.lobbyUpdated lobby'⟩,
          ⟨Target.allClients, Msg.lobbiesList⟩])

/-- The `startGame` handler.  `randomIndex` stands for
`Math.floor(Math.random() * lobby.players.length)`, which in JS always lies
in `[0, players.length)`; the `none` branch of the final match is therefore
unreachable on the source's inputs. -/
def startGame (sid : String) (randomIndex : Nat) (st : ServerState) :
    ServerState × List Emit :=
  match alget sid st.playerLobbyMap with
  | none =>
    (st, [⟨Target.toSocket sid, Msg.lobbyError "Could not start game - lobby not found."⟩])
  | some lobbyId =>
    match alget lobbyId st.lobbies with
    | none =>
      (st, [⟨Target.toSocket sid, Msg.lobbyError "Could not start game - lobby not found."⟩])
    | some lobby =>
      if lobby.hostId ≠ sid then
        (st, [⟨Target.toSocket sid, Msg.lobbyError "Only the host can start the game."⟩])
      else if lobby.players.length < 2 then
        (st, [⟨Target.toSocket sid, Msg.lobbyError "Need at least 2 players to start the game."⟩])
      else
        match lobby.players.get? randomIndex with
        | none => (st, [])
        | some gorillaPlayer =>
          let lobby' := { lobby with inGame := true }
          let roles := buildRoles lobby.players 0 randomIndex
          ({ st with
              lobbies := alset lobbyId lobby' st.lobbies,
              activeGames :=
                if lobbyId ∈ st.activeGames then st.activeGames
                else lobbyId :: st.activeGames,
              gorillaPlayerId := some gorillaPlayer.id },
           [⟨Target.toRoom lobbyId,
             Msg.gameStarted lobbyId lobby'.players roles gorillaPlayer.id gorillaPlayer.name⟩,
            ⟨Target.allClients, Msg.lobbiesList⟩])

/-- The `join` handler (joining the running game world).  `colorIndex`
stands for the random index drawn inside `randomColor()`. -/
def joinGame (sid name : String) (position : Option Pos) (rotation : Option Rot)
    (isGorilla : Option Bool) (colorIndex : Nat) (st : ServerState) :
    ServerState × List Emit :=
  let player : SPlayer :=
    { id := sid, name := name, position := position.getD ⟨0, 0, 0⟩,
      rotation := rotation.getD ⟨0⟩, color := randomColor colorIndex,
      isGorilla := isGorilla.getD false }
  let players' := alset sid player st.players
  let (hostId', hostEmits) : Option String × List Emit :=
    match st.hostId with
    | none => (some sid, [⟨Target.toSocket sid, Msg.hostAssigned⟩])
    | some h => (some h, ([] : List Emit))
  let existing := (players'.map (fun p => p.2)).filter (fun p => p.id ≠ sid)
  ({ st with players := players', hostId := hostId' },
   hostEmits ++
   [⟨Target.toSocket sid, Msg.existingPlayers existing⟩,
    ⟨Target.broadcastExcept sid, Msg.playerJoined player⟩])

/-- The `playerUpdate` handler: silently drop unknown senders, otherwise
store the transform and relay it via `socket.broadcast.emit`. -/
def playerUpdate (sid : String) (position : Pos) (rotation : Rot)
    (st : ServerState) : ServerState × List Emit :=
  match alget sid st.players with
  | none => (st, [])
  | some p =>
    ({ st with players := alset sid { p with position := position, rotation := rotation } st.players },
     [⟨Target.broadcastExcept sid, Msg.playerMoved sid position rotation⟩])

/-- First section of the `disconnect` handler: socket book-keeping and
lobby cleanup (identical in shape to `leaveLobby`, plus active-game
removal on empty). -/
def disconnectLobbyCleanup (sid : String) (st : ServerState) : ServerState × List Emit :=
  let st0 :=
    { st with
      sockets := st.sockets.filter (fun s => s ≠ sid),
      rooms := roomsDropSocket sid st.rooms }
  match alget sid st0.playerLobbyMap with
    | none => (st0, ([] : List Emit))
    | some lobbyId =>
      match alget lobbyId st0.lobbies with
      | none => (st0, ([] : List Emit))
      | some lobby =>
        let remaining := lobby.players.filter (fun p => p.id ≠ sid)
        let map' := aldel sid st0.playerLobbyMap
        match remaining with
        | [] =>
          let lobby' := { lobby with players := [] }
          ({ st0 with
             lobbies := aldel lobbyId st0.lobbies,
             playerLobbyMap := map',
             activeGames := st0.activeGames.filter (fun g => g ≠ lobbyId) },
           [⟨Target.toRoom lobbyId, Msg.lobbyUpdated lobby'⟩,
            ⟨Target.allClients, Msg.lobbiesList⟩])
        | first :: _ =>
          if lobby.hostId = sid then
            let lobby' := { lobby with players := remaining, hostId := first.id }
            let hostNotify : List Emit :=
              if first.id ∈ st0.sockets then
                [⟨Target.toSocket first.id, Msg.lobbyUpdated lobby'⟩]
              else []
            ({ st0 with
               lobbies := alset lobbyId lobby' st0.lobbies,
               playerLobbyMap := map' },
             hostNotify ++
             [⟨Target.toRoom lobbyId, Msg.lobbyUpdated lobby'⟩,
              ⟨Target.allClients, Msg.lobbiesList⟩])
          else
            let lobby' := { lobby with players := remaining }
            ({ st0 with
               lobbies := alset lobbyId lobby' st0.lobbies,
               playerLobbyMap := map' },
             [⟨Target.toRoom lobbyId, Msg.lobbyUpdated lobby'⟩,
              ⟨Target.allClients, Msg.lobbiesList⟩])
/-- Second section of the `disconnect` handler: `playerLeft` broadcast,
global (legacy) host migration (`remainingPlayers[0]` or `null`), and
removal from `players`. -/
def disconnectPlayersCleanup (sid : String) (st1 : ServerState) : ServerState × List Emit :=
  match alget sid st1.players with
  | none => (st1, [])
  | some _ =>
    let leftEmit : List Emit := [⟨Target.allClients, Msg.playerLeft sid⟩]
    let remainingPlayers := (st1.players.map (fun p => p.1)).filter (fun i => i ≠ sid)
    let newHost : Option String :=
      if st1.hostId = some sid then remainingPlayers.head? else st1.hostId
    let hostEmits : List Emit :=
      if st1.hostId = some sid then
        match remainingPlayers with
        | [] => []
        | h :: _ => if h ∈ st1.sockets then [⟨Target.toSocket h, Msg.hostAssigned⟩] else []
      else []
    ({ st1 with
       players := aldel sid st1.players,
       hostId := newHost },
     leftEmit ++ hostEmits)

/-- The `disconnect` handler: lobby cleanup, then player cleanup. -/
def disconnect (sid : String) (st : ServerState) : ServerState × List Emit :=
  let r1 := disconnectLobbyCleanup sid st
  let r2 := disconnectPlayersCleanup sid r1.1
  (r2.1, r1.2 ++ r2.2)

/-! ## Operations and traces -/

/-- One incoming server event, with all randomness explicit. -/
inductive Op where
  | connect (sid : String)
  | createLobby (sid : String) (name : Option String) (maxPlayers : Option Nat)
      (playerName : String) (newLobbyId : String)
  | joinLobby (sid lobbyId playerName : String)
  | leaveLobby (sid : String)
  | kickPlayer (sid targetId : String)
  | startGame (sid : String) (randomIndex : Nat)
  | joinGame (sid name : String) (position : Option Pos) (rotation : Option Rot)
      (isGorilla : Option Bool) (colorIndex : Nat)
  | playerUpdate (sid : String) (position : Pos) (rotation : Rot)
  | disconnect (sid : String)
deriving DecidableEq, Repr

/-- Dispatch one event to its handler.  `connect` adds the socket to
`clientSockets`. -/
def applyOp (st : ServerState) : Op → ServerState × List Emit
  | Op.connect sid =>
    ({ st with sockets := if sid ∈ st.sockets then st.sockets else st.sockets ++ [sid] }, [])
  | Op.createLobby sid name maxPlayers playerName newLobbyId =>
    createLobby sid name maxPlayers playerName newLobbyId st
  | Op.joinLobby sid lobbyId playerName => joinLobby sid lobbyId playerName st
  | Op.leaveLobby sid => leaveLobby sid st
  | Op.kickPlayer sid targetId => kickPlayer sid targetId st
  | Op.startGame sid randomIndex => startGame sid randomIndex st
  | Op.joinGame sid name position rotation isGorilla colorIndex =>
    joinGame sid name position rotation isGorilla colorIndex st
  | Op.playerUpdate sid position rotation => playerUpdate sid position rotation st
  | Op.disconnect sid => disconnect sid st

/-- Run a trace from a state, discarding emissions. -/
def applyOps (st : ServerState) (ops : List Op) : ServerState :=
  ops.foldl (fun s op => (applyOp s op).1) st

/-- Run a trace from a state, collecting every emission in order. -/
def runOps (st : ServerState) : List Op → ServerState × List Emit
  | [] => (st, [])
  | op :: rest =>
    let (st', es) := applyOp st op
    let (st'', es') := runOps st' rest
    (st'', es ++ es')

/-! ## Client: remote-entity reconciler (`MultiplayerManager.js`)

Each remote session is shown through a THREE.js group.  The embedding gives
every group created by the manager a fresh numeric id (`repId`) and records
its owner session and transform; `scene` is the list of groups currently
added to the scene.  The manager's `remotePlayersMap` entry keeps (of the
fields the claims touch) the reference to the current group and the
`isPlaceholder` flag.  `loadRemotePlayerModel` runs synchronously from
`addRemotePlayer` up to its `await`: it clones the placeholder's transform
(`originalPosition` / `originalRotation`), creates the real player's group,
adds it to the scene and positions it at the clone — all before the model
arrives.  The remainder of `loadRemotePlayerModel` (after the polling loop
resolves) is the `modelLoadFinished` event; its `modelLoaded` flag tells
whether the model arrived before the 5 s timeout.  The embedding covers the
non-gorilla path (no `transformRemotePlayerToGorilla`). -/

/-- One THREE.js group added by the manager, with the session it renders. -/
structure SceneObj where
  repId : Nat
  owner : String
  position : Pos
  rotationY : Int
deriving DecidableEq, Repr

/-- The fields of a `remotePlayersMap` entry the claims are about:
`player` (reference to the current group) and `isPlaceholder`. -/
structure RPEntry where
  playerRep : Nat
  isPlaceholder : Bool
deriving DecidableEq, Repr

/-- An in-flight `loadRemotePlayerModel` call: which session it is loading
for, and the group it created and parked in the scene. -/
structure LoadTask where
  playerId : String
  repId : Nat
deriving DecidableEq, Repr

/-- The client-side state of the reconciler. -/
structure ClientState where
  scene : List SceneObj
  remotePlayersMap : List (String × RPEntry)
  pendingLoads : List LoadTask
  nextRepId : Nat
deriving DecidableEq, Repr

/-- An empty scene. -/
def initClientState : ClientState :=
  { scene := [], remotePlayersMap := [], pendingLoads := [], nextRepId := 0 }

/-- Write a transform onto the group with the given id. -/
def setTransform (repId : Nat) (position : Pos) (rotationY : Int)
    (scene : List SceneObj) : List SceneObj :=
  scene.map (fun ob =>
    if ob.repId = repId then { ob with position := position, rotationY := rotationY } else ob)

/-- `addRemotePlayer` (including the synchronous prefix of
`loadRemotePlayerModel`): for a known id, just reposition the existing
group; otherwise create the placeholder at the reported transform, register
it, and immediately create, position and insert the future real group. -/
def addRemotePlayer (id : String) (position : Pos) (rotationY : Int)
    (st : ClientState) : ClientState :=
  match alget id st.remotePlayersMap with
  | some entry =>
    { st with scene := setTransform entry.playerRep position rotationY st.scene }
  | none =>
    let placeholder : SceneObj :=
      { repId := st.nextRepId, owner := id, position := position, rotationY := rotationY }
    let realGroup : SceneObj :=
      { repId := st.nextRepId + 1, owner := id, position := position, rotationY := rotationY }
    { st with
      scene := st.scene ++ [placeholder, realGroup],
      remotePlayersMap := alset id ⟨st.nextRepId, true⟩ st.remotePlayersMap,
      pendingLoads := st.pendingLoads ++ [⟨id, st.nextRepId + 1⟩],
      nextRepId := st.nextRepId + 2 }

/-- First in-flight load for a session. -/
def findTask (pending : List LoadTask) (id : String) : Option LoadTask :=
  pending.find? (fun t => t.playerId == id)

/-- Drop the first in-flight load for a session. -/
def removeFirstTask (id : String) : List LoadTask → List LoadTask
  | [] => []
  | t :: rest => if t.playerId = id then rest else t :: removeFirstTask id rest

/-- The tail of `loadRemotePlayerModel`, run when its polling loop
resolves.  If the session has left the registry, the created group is
removed from the scene and nothing else happens.  Otherwise the map entry
is swapped to the created group (its transform — captured at load start —
is not touched), and the previous group is removed from the scene only when
the model actually arrived (`modelLoaded`). -/
def modelLoadFinished (id : String) (modelLoaded : Bool) (st : ClientState) :
    ClientState :=
  match findTask st.pendingLoads id with
  | none => st
  | some task =>
    let pending' := removeFirstTask id st.pendingLoads
    match alget id st.remotePlayersMap with
    | none =>
      { st with
        scene := st.scene.filter (fun ob => ob.repId ≠ task.repId),
        pendingLoads := pending' }
    | some entry =>
      { st with
        scene := if modelLoaded then st.scene.filter (fun ob => ob.repId ≠ entry.playerRep)
          else st.scene,
        remotePlayersMap := alset id ⟨task.repId, false⟩ st.remotePlayersMap,
        pendingLoads := pending' }

/-- `updateRemotePlayer`: apply an incoming transform to whatever group the
registry currently names; silently ignore unknown sessions. -/
def updateRemotePlayer (id : String) (position : Pos) (rotationY : Int)
    (st : ClientState) : ClientState :=
  match alget id st.remotePlayersMap with
  | none => st
  | some entry =>
    { st with scene := setTransform entry.playerRep position rotationY st.scene }

/-- `removeRemotePlayer`: remove the registered group from the scene and
drop the registry entry; no-op for unknown sessions. -/
def removeRemotePlayer (id : String) (st : ClientState) : ClientState :=
  match alget id st.remotePlayersMap with
  | none => st
  | some entry =>
    { st with
      scene := st.scene.filter (fun ob => ob.repId ≠ entry.playerRep),
      remotePlayersMap := aldel id st.remotePlayersMap }

/-- One client-side event, in event-loop order. -/
inductive CEvent where
  | playerJoined (id : String) (position : Pos) (rotationY : Int)
  | playerMoved (id : String) (position : Pos) (rotationY : Int)
  | modelLoadFinished (id : String) (modelLoaded : Bool)
  | playerLeft (id : String)
deriving DecidableEq, Repr

/-- Dispatch one client event. -/
def applyCEvent (st : ClientState) : CEvent → ClientState
  | CEvent.playerJoined id position rotationY => addRemotePlayer id position rotationY st
  | CEvent.playerMoved id position rotationY => updateRemotePlayer id position rotationY st
  | CEvent.modelLoadFinished id modelLoaded => modelLoadFinished id modelLoaded st
  | CEvent.playerLeft id => removeRemotePlayer id st

/-- Run a client event trace. -/
def applyCEvents (st : ClientState) (evs : List CEvent) : ClientState :=
  evs.foldl applyCEvent st

/-! ## Client: outbound rate limiter (`startSendingUpdates`)

A fixed `setInterval(..., 50)` drives the sends: `socket.emit("playerUpdate", ...)`
occurs nowhere else in the client.  Each tick compares the current
transform component-wise with the last sent one and emits only on change. -/

/-- The limiter's persistent fields: `lastSentPosition`, `lastSentRotation`
(absent until the first send). -/
structure RateLimiter where
  lastSentPosition : Option Pos
  lastSentRotation : Option Rot
deriving DecidableEq, Repr

/-- The `hasChanged` test of the 50 ms tick:
`!lastSentPosition || lastSentPosition.x !== position.x || ... || lastSentRotation?.y !== rotation.y`. -/
def hasChanged (rl : RateLimiter) (position : Pos) (rotation : Rot) : Bool :=
  match rl.lastSentPosition with
  | none => true
  | some lp =>
    (lp.x ≠ position.x : Bool) || (lp.y ≠ position.y : Bool) ||
      (lp.z ≠ position.z : Bool) ||
      (match rl.lastSentRotation with
       | none => true
       | some lr => (lr.y ≠ rotation.y : Bool))

/-- One 50 ms tick with the local player's current transform: emit the
update and record it as last-sent when `hasChanged`, otherwise do
nothing. -/
def tick (rl : RateLimiter) (position : Pos) (rotation : Rot) :
    RateLimiter × Option (Pos × Rot) :=
  if hasChanged rl position rotation then
    ({ lastSentPosition := some position, lastSentRotation := some rotation },
     some (position, rotation))
  else
    (rl, none)


/-- A two-member lobby state: `"a"` (host) created `"L"`, `"b"` joined. -/
def c3state : ServerState := applyOps initState
  [Op.connect "a", Op.connect "b",
   Op.createLobby "a" (some "Room") none "Ann" "L",
   Op.joinLobby "b" "L" "Bob"]

/-- The lobby record of `"L"` in `c3state`. -/
def c3lobby : SLobby :=
  { id := "L", name := "Room", hostId := "a",
    players := [⟨"a", "Ann"⟩, ⟨"b", "Bob"⟩], maxPlayers := 4, inGame := false }

/-- A state with two disjoint two-member lobbies `"L1"` and `"L2"`. -/
def c10state : ServerState := applyOps initState
  [Op.connect "a", Op.connect "b", Op.connect "c", Op.connect "d",
   Op.createLobby "a" (some "R1") none "Ann" "L1",
   Op.joinLobby "b" "L1" "Bob",
   Op.createLobby "c" (some "R2") none "Cara" "L2",
   Op.joinLobby "d" "L2" "Dan"]

/-- The lobby record of `"L1"` in `c10state`. -/
def c10lobby1 : SLobby :=
  { id := "L1", name := "R1", hostId := "a",
    players := [⟨"a", "Ann"⟩, ⟨"b", "Bob"⟩], maxPlayers := 4, inGame := false }

/-- The lobby record of `"L2"` in `c10state`. -/
def c10lobby2 : SLobby :=
  { id := "L2", name := "R2", hostId := "c",
    players := [⟨"c", "Cara"⟩, ⟨"d", "Dan"⟩], maxPlayers := 4, inGame := false }


/-- Mid-load client trace: `"p"` appears at (1,2,3), a `playerMoved` moves
the placeholder to (7,8,9) while the model is loading. -/
def c4midState : ClientState := applyCEvents initClientState
  [CEvent.playerJoined "p" ⟨1, 2, 3⟩ 0, CEvent.playerMoved "p" ⟨7, 8, 9⟩ 1]

/-- The same trace continued: the model load then completes. -/
def c4swappedState : ClientState := applyCEvents c4midState
  [CEvent.modelLoadFinished "p" true]


/-- Does this operation (re)create a lobby record under the given id —
i.e. start a new lobby instance at that key? -/
def opCreatesLobbyAt (op : Op) (lid : String) : Bool :=
  match op with
  | Op.createLobby _ _ _ _ newLobbyId => newLobbyId == lid
  | _ => false

/-- The trace of a lobby started twice by its host. -/
def c8trace : List Op :=
  [Op.connect "a", Op.connect "b",
   Op.createLobby "a" (some "Room") none "Ann" "L",
   Op.joinLobby "b" "L" "Bob",
   Op.startGame "a" 0,
   Op.startGame "a" 1]

/-- The state after the first five operations of `c8trace` (first
`startGame` included). -/
def c8afterFirst : ServerState := applyOps initState (c8trace.take 5)


/-- The lobby record of `"L"` in `c8afterFirst`. -/
def c8lobby : SLobby :=
  { id := "L", name := "Room", hostId := "a",
    players := [⟨"a", "Ann"⟩, ⟨"b", "Bob"⟩], maxPlayers := 4, inGame := true }


/-- Does this operation name its own sender as the kick target?  (The only
lobby operation able to break the host-membership invariant.) -/
def selfKick : Op → Bool
  | Op.kickPlayer sid targetId => sid == targetId
  | _ => false

/-- The inductive invariant tying each lobby's member list to
`playerLobbyMap`: members are duplicate-free, the host is a member, and
every member is mapped back to this lobby. -/
def ServerInv (st : ServerState) : Prop :=
  ∀ (lid : String) (lobby : SLobby), alget lid st.lobbies = some lobby →
    (memberIds lobby).Nodup ∧
    lobby.hostId ∈ memberIds lobby ∧
    ∀ pid : String, pid ∈ memberIds lobby → alget pid st.playerLobbyMap = some lid

/-- The state reached when the host kicks *themselves*. -/
def c1cexState : ServerState := applyOps initState
  [Op.connect "a", Op.connect "b",
   Op.createLobby "a" (some "Room") none "Ann" "L",
   Op.joinLobby "b" "L" "Bob",
   Op.kickPlayer "a" "a"]

/-- The lobby record of `"L"` in `c1cexState`. -/
def c1cexLobby : SLobby :=
  { id := "L", name := "Room", hostId := "a",
    players := [⟨"b", "Bob"⟩], maxPlayers := 4, inGame := false }


/-- A five-operation trace whose kick names another member (no self-kick). -/
def c1okops : List Op :=
  [Op.connect "a", Op.connect "b",
   Op.createLobby "a" (some "Room") none "Ann" "L",
   Op.joinLobby "b" "L" "Bob",
   Op.kickPlayer "a" "b"]

/-- The lobby record of `"L"` after `c1okops`. -/
def c1okLobby : SLobby :=
  { id := "L", name := "Room", hostId := "a",
    players := [⟨"a", "Ann"⟩], maxPlayers := 4, inGame := false }


/-- Is this event a load completion for session `s`? -/
def isLoadFinishFor (s : String) : CEvent → Bool
  | CEvent.modelLoadFinished id _ => id == s
  | _ => false

/-- Is this event a join for session `s`? -/
def isJoinFor (s : String) : CEvent → Bool
  | CEvent.playerJoined id _ _ => id == s
  | _ => false

/-- While session `s` is live, every scene group owned by `s` is either the
group its registry entry names or the group of one of its in-flight
loads. -/
def TrackedInv (s : String) (st : ClientState) : Prop :=
  ∀ ob ∈ st.scene, ob.owner = s →
    (∃ e : RPEntry, alget s st.remotePlayersMap = some e ∧ e.playerRep = ob.repId) ∨
    (∃ t ∈ st.pendingLoads, t.playerId = s ∧ t.repId = ob.repId)

/-- After session `s` is removed: it has no registry entry, and every scene
group it still owns belongs to an in-flight load (whose completion will
remove it). -/
def DetachedInv (s : String) (st : ClientState) : Prop :=
  alget s st.remotePlayersMap = none ∧
  ∀ ob ∈ st.scene, ob.owner = s →
    ∃ t ∈ st.pendingLoads, t.playerId = s ∧ t.repId = ob.repId

/-- State after the `join` handler registers session `"a"` drawing random
palette index 0. -/
def c9stateA : ServerState := (joinGame "a" "Ann" none none none 0 initState).1

/-- State after the `join` handler registers the same session id `"a"`
drawing random palette index 1. -/
def c9stateB : ServerState := (joinGame "a" "Ann" none none none 1 initState).1

/-- A state with three connected, registered sessions of which `"a"` and
`"b"` share lobby `"L1"` while `"c"` is in no lobby. -/
def c6state : ServerState := applyOps initState
  [Op.connect "a", Op.connect "b", Op.connect "c",
   Op.joinGame "a" "Ann" none none none 0,
   Op.joinGame "b" "Bob" none none none 1,
   Op.joinGame "c" "Cara" none none none 2,
   Op.createLobby "a" none none "Ann" "L1",
   Op.joinLobby "b" "L1" "Bob"]

/-- The `players` record of `"a"` in `c6state`. -/
def c6pa : SPlayer :=
  { id := "a", name := "Ann", position := ⟨0, 0, 0⟩, rotation := ⟨0⟩,
    color := 0xff0000, isGorilla := false }

/-! ## Lemmas about the dictionary helpers -/

theorem alget_alset_self {α : Type} (k : String) (v : α) (l : List (String × α)) :
    alget k (alset k v l) = some v := by
  induction l with
  | nil => simp [alget, alset]
  | cons hd tl ih =>
    by_cases h : hd.1 = k
    · simp [alset, h, alget]
    · simp [alset, h, alget, ih]

theorem alget_alset_ne {α : Type} {k k' : String} (v : α) (l : List (String × α))
    (h : k ≠ k') : alget k' (alset k v l) = alget k' l := by
  induction l with
  | nil => simp [alget, alset, h]
  | cons hd tl ih =>
    by_cases hh : hd.1 = k
    · simp [alset, hh, alget, h, Ne.symm h]
    · by_cases hk : hd.1 = k'
      · simp [alset, hh, alget, hk, Ne.symm h]
      · simp [alset, hh, alget, hk, ih]

theorem alget_aldel_self {α : Type} (k : String) (l : List (String × α)) :
    alget k (aldel k l) = none := by
  induction l with
  | nil => simp [alget, aldel]
  | cons hd tl ih =>
    by_cases h : hd.1 = k
    · simpa [aldel, h] using ih
    · simpa [aldel, alget, h] using ih

theorem alget_aldel_ne {α : Type} {k k' : String} (l : List (String × α))
    (h : k ≠ k') : alget k' (aldel k l) = alget k' l := by
  induction l with
  | nil => simp [alget, aldel]
  | cons hd tl ih =>
    by_cases hh : hd.1 = k
    · have hne : hd.1 ≠ k' := fun hc => h (hh ▸ hc ▸ rfl)
      simp [aldel, alget, hh, hne, ih, h]
    · by_cases hk : hd.1 = k'
      · simp [aldel, alget, hh, hk, Ne.symm h]
      · simp [aldel, alget, hh, hk, ih]

/-! ## C7: the client rate limiter -/

/-- C7: the fixed 50 ms timer is the only send trigger (in the source,
`socket.emit("playerUpdate", ...)` occurs only inside the `setInterval`
callback, which `tick` embeds); a tick whose current transform equals the
last sent one component-wise emits nothing, so two consecutive identical
transforms produce at most one send, and re-ticking with an unchanged
transform is idempotent: the second tick emits nothing and leaves the
last-sent state unchanged. -/
theorem tick_unchanged_idempotent (rl : RateLimiter) (position : Pos) (rotation : Rot) :
    tick (tick rl position rotation).1 position rotation = ((tick rl position rotation).1, none) := by
  by_cases h : hasChanged rl position rotation
  · simp only [tick, h, if_true]
    simp [hasChanged]
  · simp only [tick, h, if_false]
    simp [h]

/-! ## C9: display-color assignment -/

/-- C9 counterexample: the color is drawn by `randomColor()` from
`Math.random()`, not derived from the session id — two registrations with
the identical id `"a"` (differing only in the random draw) receive the
distinct colors red and green, refuting `hash(id) mod paletteSize`
determinism. -/
theorem joinGame_color_not_id_determined :
    (alget "a" c9stateA.players).map SPlayer.color = some 0xff0000 ∧
    (alget "a" c9stateB.players).map SPlayer.color = some 0x00ff00 ∧
    (0xff0000 : Nat) ≠ 0x00ff00 := by decide

/-- C9 amended: the `join` handler assigns the display color by indexing
the fixed 7-color palette with an independent uniform random draw
(`Math.floor(Math.random() * 7)`); the color is a function of that draw
alone, the session id plays no part, so equal ids need not receive equal
colors. -/
theorem joinGame_color_from_palette (st : ServerState) (sid name : String)
    (position : Option Pos) (rotation : Option Rot) (isGorilla : Option Bool)
    (colorIndex : Nat) (h : colorIndex < colorsPalette.length) :
    ∃ p : SPlayer,
      alget sid ((joinGame sid name position rotation isGorilla colorIndex st).1).players = some p ∧
      p.color = colorsPalette.get ⟨colorIndex, h⟩ := by
  refine ⟨{ id := sid, name := name, position := position.getD ⟨0, 0, 0⟩,
            rotation := rotation.getD ⟨0⟩, color := randomColor colorIndex,
            isGorilla := isGorilla.getD false }, ?_, ?_⟩
  · cases hh : st.hostId <;> simp [joinGame, hh, alget_alset_self]
  · show randomColor colorIndex = _
    simp [randomColor, List.getElem?_eq_getElem h]

/-- Witness for `joinGame_color_from_palette` at palette index 3. -/
theorem joinGame_color_from_palette_spot :
    ∃ p : SPlayer,
      alget "zz" ((joinGame "zz" "Zoe" none none none 3 initState).1).players = some p ∧
      p.color = colorsPalette.get ⟨3, by decide⟩ :=
  joinGame_color_from_palette initState "zz" "Zoe" none none none 3 (by decide)

/-! ## C6: the `playerUpdate` relay -/

/-- C6 counterexample: `playerUpdate` relays via `socket.broadcast.emit`,
which reaches every other connected socket — here both `"b"` and `"c"` —
although `"c"` is not a member of the sender's lobby `"L1"`; the claim's
"exactly the other members of the sender's lobby" is false. -/
theorem playerUpdate_relay_not_lobby_scoped :
    (playerUpdate "a" ⟨1, 1, 1⟩ ⟨0⟩ c6state).2 =
      [⟨Target.broadcastExcept "a", Msg.playerMoved "a" ⟨1, 1, 1⟩ ⟨0⟩⟩] ∧
    deliveredTo c6state (Target.broadcastExcept "a") = ["b", "c"] ∧
    alget "a" c6state.playerLobbyMap = some "L1" ∧
    (alget "L1" c6state.lobbies).map memberIds = some ["a", "b"] := by decide

/-- C6 amended: for an incoming `playerUpdate`, a registered sender's
stored transform is overwritten and the transform is relayed verbatim to
every *other connected client* (not only the sender's lobby); an unknown
or already-deregistered sender makes the handler a silent no-op that
changes nothing and sends nothing. -/
theorem playerUpdate_behavior (st : ServerState) (sid : String)
    (position : Pos) (rotation : Rot) :
    (alget sid st.players = none → playerUpdate sid position rotation st = (st, [])) ∧
    (∀ p : SPlayer, alget sid st.players = some p →
      playerUpdate sid position rotation st =
        ({ st with
           players := alset sid { p with position := position, rotation := rotation } st.players },
         [⟨Target.broadcastExcept sid, Msg.playerMoved sid position rotation⟩]) ∧
      deliveredTo st (Target.broadcastExcept sid) = st.sockets.filter (fun s => s ≠ sid)) := by
  constructor
  · intro h
    simp [playerUpdate, h]
  · intro p h
    constructor
    · simp [playerUpdate, h]
    · rfl

/-- Witness for `playerUpdate_behavior`: the registered-sender branch at
the concrete state `c6state`. -/
theorem playerUpdate_behavior_spot :
    playerUpdate "a" ⟨1, 1, 1⟩ ⟨0⟩ c6state =
      ({ c6state with
         players := alset "a" { c6pa with position := ⟨1, 1, 1⟩, rotation := ⟨0⟩ } c6state.players },
       [⟨Target.broadcastExcept "a", Msg.playerMoved "a" ⟨1, 1, 1⟩ ⟨0⟩⟩]) ∧
    deliveredTo c6state (Target.broadcastExcept "a") = c6state.sockets.filter (fun s => s ≠ "a") :=
  (playerUpdate_behavior c6state "a" ⟨1, 1, 1⟩ ⟨0⟩).2 c6pa (by decide)

/-! ## Helper lemmas about `buildRoles` and `startGame` -/

theorem length_buildRoles (players : List LobbyMember) (i g : Nat) :
    (buildRoles players i g).length = players.length := by
  induction players generalizing i with
  | nil => rfl
  | cons p rest ih => simp [buildRoles, ih]

theorem get?_buildRoles (players : List LobbyMember) (i g k : Nat) :
    (buildRoles players i g).get? k =
      (players.get? k).map (fun p => ⟨p.id, p.name, (i + k) == g⟩) := by
  induction players generalizing i k with
  | nil => simp [buildRoles]
  | cons p rest ih =>
    cases k with
    | zero => simp [buildRoles]
    | succ k' =>
      simp only [buildRoles, List.get?_cons_succ, ih]
      have : i + 1 + k' = i + (k' + 1) := by omega
      rw [this]

theorem countP_buildRoles (players : List LobbyMember) (i g : Nat) :
    (buildRoles players i g).countP (fun re => re.isGorilla) =
      if i ≤ g ∧ g < i + players.length then 1 else 0 := by
  induction players generalizing i with
  | nil =>
    simp only [buildRoles, List.countP_nil, List.length_nil, Nat.add_zero]
    split_ifs with hif
    · omega
    · rfl
  | cons p rest ih =>
    simp only [buildRoles, List.countP_cons, ih]
    by_cases hig : i = g
    · have hb : ((i == g : Bool)) = true := by simpa using hig
      simp only [hb]
      split_ifs <;> simp_all
    · have hb : ((i == g : Bool)) = false := by simpa using hig
      simp only [hb]
      split_ifs <;> simp_all <;> omega

/-- The success path of `startGame`, fully described: requester mapped to an
existing lobby, requester is the host, at least two members, and the random
index in range (as `Math.floor(Math.random()*n)` always is). -/
theorem startGame_success (st : ServerState) (sid lobbyId : String) (lobby : SLobby)
    (r : Nat)
    (hm : alget sid st.playerLobbyMap = some lobbyId)
    (hl : alget lobbyId st.lobbies = some lobby)
    (hh : lobby.hostId = sid)
    (hn : 2 ≤ lobby.players.length)
    (hr : r < lobby.players.length) :
    ∃ gp : LobbyMember, lobby.players.get? r = some gp ∧
      startGame sid r st =
        ({ st with
           lobbies := alset lobbyId { lobby with inGame := true } st.lobbies,
           activeGames := if lobbyId ∈ st.activeGames then st.activeGames
             else lobbyId :: st.activeGames,
           gorillaPlayerId := some gp.id },
         [⟨Target.toRoom lobbyId,
           Msg.gameStarted lobbyId lobby.players (buildRoles lobby.players 0 r) gp.id gp.name⟩,
          ⟨Target.allClients, Msg.lobbiesList⟩]) := by
  have hget : lobby.players.get? r = some (lobby.players.get ⟨r, hr⟩) :=
    List.get?_eq_get hr
  refine ⟨lobby.players.get ⟨r, hr⟩, hget, ?_⟩
  have hlt : ¬ (lobby.players.length < 2) := by omega
  simp only [startGame, hm, hl, hh, hget, hlt]
  simp

/-- The second `disconnect` section never touches `lobbies` or
`playerLobbyMap`. -/
theorem disconnectPlayersCleanup_preserves (sid : String) (st1 : ServerState) :
    ((disconnectPlayersCleanup sid st1).1).lobbies = st1.lobbies ∧
    ((disconnectPlayersCleanup sid st1).1).playerLobbyMap = st1.playerLobbyMap := by
  unfold disconnectPlayersCleanup
  split
  · exact ⟨rfl, rfl⟩
  · exact ⟨rfl, rfl⟩

/-- C3: when a lobby member departs — by `leaveLobby` or by `disconnect` —
an emptied lobby is deleted, and a departing host with members left behind
is replaced by the oldest remaining member in join order (`players` is
append-ordered and the handler promotes `lobby.players[0]` of the filtered
list). -/
theorem leave_destroys_empty_or_promotes_oldest (st : ServerState)
    (sid lobbyId : String) (lobby : SLobby)
    (hm : alget sid st.playerLobbyMap = some lobbyId)
    (hl : alget lobbyId st.lobbies = some lobby) :
    (lobby.players.filter (fun p => p.id ≠ sid) = [] →
      alget lobbyId ((leaveLobby sid st).1).lobbies = none ∧
      alget lobbyId ((disconnect sid st).1).lobbies = none) ∧
    (∀ (first : LobbyMember) (rest : List LobbyMember),
      lobby.players.filter (fun p => p.id ≠ sid) = first :: rest →
      lobby.hostId = sid →
      (∃ l1 : SLobby, alget lobbyId ((leaveLobby sid st).1).lobbies = some l1 ∧
        l1.hostId = first.id ∧ l1.players = first :: rest) ∧
      (∃ l2 : SLobby, alget lobbyId ((disconnect sid st).1).lobbies = some l2 ∧
        l2.hostId = first.id ∧ l2.players = first :: rest)) := by
  have hdm : alget sid ({ st with
      sockets := st.sockets.filter (fun s => s ≠ sid),
      rooms := roomsDropSocket sid st.rooms } : ServerState).playerLobbyMap = some lobbyId := hm
  have hdl : alget lobbyId ({ st with
      sockets := st.sockets.filter (fun s => s ≠ sid),
      rooms := roomsDropSocket sid st.rooms } : ServerState).lobbies = some lobby := hl
  have hdisc : ((disconnect sid st).1).lobbies = ((disconnectLobbyCleanup sid st).1).lobbies :=
    (disconnectPlayersCleanup_preserves sid (disconnectLobbyCleanup sid st).1).1
  constructor
  · intro hempty
    constructor
    · simp only [leaveLobby, hm, hl, hempty]
      exact alget_aldel_self ..
    · rw [hdisc]
      simp only [disconnectLobbyCleanup, hdm, hdl, hempty]
      exact alget_aldel_self ..
  · intro first rest hrem hhost
    constructor
    · refine ⟨{ lobby with players := first :: rest, hostId := first.id }, ?_, rfl, rfl⟩
      simp only [leaveLobby, hm, hl, hrem, hhost, if_true]
      exact alget_alset_self ..
    · refine ⟨{ lobby with players := first :: rest, hostId := first.id }, ?_, rfl, rfl⟩
      rw [hdisc]
      simp only [disconnectLobbyCleanup, hdm, hdl, hrem, hhost, if_true]
      exact alget_alset_self ..

/-- Witness for `leave_destroys_empty_or_promotes_oldest`: host `"a"`
leaves a two-member lobby; `"b"`, the oldest remaining member, is
promoted — both for `leaveLobby` and for `disconnect`. -/
theorem leave_promotes_spot :
    (∃ l1 : SLobby, alget "L" ((leaveLobby "a" c3state).1).lobbies = some l1 ∧
       l1.hostId = "b" ∧ l1.players = [⟨"b", "Bob"⟩] ) ∧
    (∃ l2 : SLobby, alget "L" ((disconnect "a" c3state).1).lobbies = some l2 ∧
       l2.hostId = "b" ∧ l2.players = [⟨"b", "Bob"⟩] ) :=
  (leave_destroys_empty_or_promotes_oldest c3state "a" "L" c3lobby
      (by decide) (by decide)).2 ⟨"b", "Bob"⟩ [] (by decide) (by decide)

/-- C2: `startGame` fails with the not-host error for a non-host
requester; fails with the insufficient-players error for a host of a lobby
with fewer than two members; and on success marks the lobby `inGame`,
selects the member at the random index as the single gorilla, and emits one
`gameStarted` message — carrying the complete role mapping for all members
— to the lobby room, whose occupants are exactly the lobby's members. -/
theorem startGame_role_assignment (st : ServerState) (sid lobbyId : String)
    (lobby : SLobby) (r : Nat)
    (hm : alget sid st.playerLobbyMap = some lobbyId)
    (hl : alget lobbyId st.lobbies = some lobby)
    (hroom : alget lobbyId st.rooms = some (memberIds lobby)) :
    (lobby.hostId ≠ sid →
      startGame sid r st =
        (st, [⟨Target.toSocket sid, Msg.lobbyError "Only the host can start the game."⟩])) ∧
    (lobby.hostId = sid → lobby.players.length < 2 →
      startGame sid r st =
        (st, [⟨Target.toSocket sid, Msg.lobbyError "Need at least 2 players to start the game."⟩])) ∧
    (lobby.hostId = sid → 2 ≤ lobby.players.length → r < lobby.players.length →
      ∃ gp : LobbyMember, lobby.players.get? r = some gp ∧
        ∃ st' : ServerState,
          startGame sid r st =
            (st', [⟨Target.toRoom lobbyId,
                    Msg.gameStarted lobbyId lobby.players (buildRoles lobby.players 0 r)
                      gp.id gp.name⟩,
                   ⟨Target.allClients, Msg.lobbiesList⟩]) ∧
          alget lobbyId st'.lobbies = some { lobby with inGame := true } ∧
          deliveredTo st' (Target.toRoom lobbyId) = memberIds lobby ∧
          (buildRoles lobby.players 0 r).length = lobby.players.length ∧
          (buildRoles lobby.players 0 r).countP (fun re => re.isGorilla) = 1 ∧
          (∀ (i : Nat) (p : LobbyMember), lobby.players.get? i = some p →
            (buildRoles lobby.players 0 r).get? i = some ⟨p.id, p.name, i == r⟩)) := by
  refine ⟨?_, ?_, ?_⟩
  · intro hnh
    simp [startGame, hm, hl, hnh]
  · intro hh hlt
    simp only [startGame, hm, hl, hh]
    simp [hlt]
  · intro hh hn hr
    obtain ⟨gp, hget, heq⟩ := startGame_success st sid lobbyId lobby r hm hl hh hn hr
    refine ⟨gp, hget, _, heq, ?_, ?_, ?_, ?_, ?_⟩
    · exact alget_alset_self ..
    · show (alget lobbyId st.rooms).getD [] = memberIds lobby
      rw [hroom]
      rfl
    · exact length_buildRoles ..
    · rw [countP_buildRoles]
      simp only [Nat.zero_add]
      rw [if_pos ⟨Nat.zero_le r, hr⟩]
    · intro i p hp
      rw [get?_buildRoles, hp]
      simp

/-- Witness for `startGame_role_assignment`: the success branch in a
two-member lobby with the random draw selecting the second member. -/
theorem startGame_role_assignment_spot :
    ∃ gp : LobbyMember, c3lobby.players.get? 1 = some gp ∧
      ∃ st' : ServerState,
        startGame "a" 1 c3state =
          (st', [⟨Target.toRoom "L",
                  Msg.gameStarted "L" c3lobby.players (buildRoles c3lobby.players 0 1)
                    gp.id gp.name⟩,
                 ⟨Target.allClients, Msg.lobbiesList⟩]) ∧
        alget "L" st'.lobbies = some { c3lobby with inGame := true } ∧
        deliveredTo st' (Target.toRoom "L") = memberIds c3lobby ∧
        (buildRoles c3lobby.players 0 1).length = c3lobby.players.length ∧
        (buildRoles c3lobby.players 0 1).countP (fun re => re.isGorilla) = 1 ∧
        (∀ (i : Nat) (p : LobbyMember), c3lobby.players.get? i = some p →
          (buildRoles c3lobby.players 0 1).get? i = some ⟨p.id, p.name, i == 1⟩) :=
  (startGame_role_assignment c3state "a" "L" c3lobby 1
      (by decide) (by decide) (by decide)).2.2 (by decide) (by decide) (by decide)

/-- C10: the gorilla record (`gameEntities.gorilla.playerId`) is one
process-global field, not a per-lobby map — each successful `startGame`
overwrites it, so after two different lobbies start, only the second
lobby's gorilla is recorded. -/
theorem startGame_global_gorilla_overwrite (st : ServerState)
    (sid1 sid2 lid1 lid2 : String) (lobby1 lobby2 : SLobby) (r1 r2 : Nat)
    (h1m : alget sid1 st.playerLobbyMap = some lid1)
    (h1l : alget lid1 st.lobbies = some lobby1)
    (h1h : lobby1.hostId = sid1)
    (h1n : 2 ≤ lobby1.players.length)
    (h1r : r1 < lobby1.players.length)
    (hne : lid1 ≠ lid2)
    (h2m : alget sid2 st.playerLobbyMap = some lid2)
    (h2l : alget lid2 st.lobbies = some lobby2)
    (h2h : lobby2.hostId = sid2)
    (h2n : 2 ≤ lobby2.players.length)
    (h2r : r2 < lobby2.players.length) :
    ∃ g1 g2 : LobbyMember,
      lobby1.players.get? r1 = some g1 ∧ lobby2.players.get? r2 = some g2 ∧
      ((startGame sid1 r1 st).1).gorillaPlayerId = some g1.id ∧
      ((startGame sid2 r2 (startGame sid1 r1 st).1).1).gorillaPlayerId = some g2.id := by
  obtain ⟨g1, hg1, he1⟩ := startGame_success st sid1 lid1 lobby1 r1 h1m h1l h1h h1n h1r
  have hst1 : (startGame sid1 r1 st).1 =
      { st with
        lobbies := alset lid1 { lobby1 with inGame := true } st.lobbies,
        activeGames := if lid1 ∈ st.activeGames then st.activeGames
          else lid1 :: st.activeGames,
        gorillaPlayerId := some g1.id } := by rw [he1]
  have h2m' : alget sid2 ((startGame sid1 r1 st).1).playerLobbyMap = some lid2 := by
    rw [hst1]
    exact h2m
  have h2l' : alget lid2 ((startGame sid1 r1 st).1).lobbies = some lobby2 := by
    rw [hst1]
    show alget lid2 (alset lid1 { lobby1 with inGame := true } st.lobbies) = some lobby2
    rw [alget_alset_ne _ _ hne]
    exact h2l
  obtain ⟨g2, hg2, he2⟩ :=
    startGame_success ((startGame sid1 r1 st).1) sid2 lid2 lobby2 r2 h2m' h2l' h2h h2n h2r
  refine ⟨g1, g2, hg1, hg2, ?_, ?_⟩
  · rw [hst1]
  · rw [he2]

/-- Witness for `startGame_global_gorilla_overwrite`: two two-member
lobbies `"L1"` and `"L2"`; after both start, only `"L2"`'s gorilla
(`"d"`) is recorded in the single global field. -/
theorem startGame_global_gorilla_overwrite_spot :
    ∃ g1 g2 : LobbyMember,
      c10lobby1.players.get? 0 = some g1 ∧ c10lobby2.players.get? 1 = some g2 ∧
      ((startGame "a" 0 c10state).1).gorillaPlayerId = some g1.id ∧
      ((startGame "c" 1 (startGame "a" 0 c10state).1).1).gorillaPlayerId = some g2.id :=
  startGame_global_gorilla_overwrite c10state "a" "c" "L1" "L2" c10lobby1 c10lobby2 0 1
    (by decide) (by decide) (by decide) (by decide) (by decide) (by decide)
    (by decide) (by decide) (by decide) (by decide) (by decide)

/-! ## C4: the placeholder-to-model swap -/

/-- C4 counterexample: a `playerMoved` during loading moves the
placeholder to (7,8,9), but the representation inserted at swap time sits
at (1,2,3) — the transform captured when the load *started*
(`originalPosition`), not the placeholder's transform at swap time.  The
claim's "including any sessionUpdates applied to the placeholder while the
model was loading" is false. -/
theorem swap_uses_load_start_transform :
    c4midState.scene =
      [⟨0, "p", ⟨7, 8, 9⟩, 1⟩, ⟨1, "p", ⟨1, 2, 3⟩, 0⟩] ∧
    alget "p" c4midState.remotePlayersMap = some ⟨0, true⟩ ∧
    c4swappedState.scene = [⟨1, "p", ⟨1, 2, 3⟩, 0⟩] ∧
    alget "p" c4swappedState.remotePlayersMap = some ⟨1, false⟩ ∧
    (⟨1, 2, 3⟩ : Pos) ≠ ⟨7, 8, 9⟩ := by decide

/-- C4 amended: on load completion the inserted representation keeps the
transform captured at load start — `sessionUpdate`s applied to the
placeholder while loading are not carried over — and the registry entry is
atomically repointed: the placeholder's group leaves the scene, and every
later update applies to the new representation, never to the removed
placeholder. -/
theorem swap_repoints_registry (st : ClientState) (id : String)
    (task : LoadTask) (entry : RPEntry)
    (htask : findTask st.pendingLoads id = some task)
    (hentry : alget id st.remotePlayersMap = some entry)
    (hne : task.repId ≠ entry.playerRep) :
    alget id (modelLoadFinished id true st).remotePlayersMap = some ⟨task.repId, false⟩ ∧
    (∀ ob ∈ st.scene, ob.repId = task.repId → ob ∈ (modelLoadFinished id true st).scene) ∧
    (∀ ob ∈ (modelLoadFinished id true st).scene, ob.repId ≠ entry.playerRep) ∧
    (∀ (position : Pos) (rotY : Int),
      ∀ ob ∈ (updateRemotePlayer id position rotY (modelLoadFinished id true st)).scene,
        ob.repId = task.repId → ob.position = position ∧ ob.rotationY = rotY) := by
  have hstate : modelLoadFinished id true st =
      { st with
        scene := st.scene.filter (fun ob => ob.repId ≠ entry.playerRep),
        remotePlayersMap := alset id ⟨task.repId, false⟩ st.remotePlayersMap,
        pendingLoads := removeFirstTask id st.pendingLoads } := by
    simp [modelLoadFinished, htask, hentry]
  refine ⟨?_, ?_, ?_, ?_⟩
  · rw [hstate]
    exact alget_alset_self ..
  · intro ob hmem hrep
    rw [hstate]
    refine List.mem_filter.2 ⟨hmem, ?_⟩
    simp [hrep, hne]
  · intro ob hmem
    rw [hstate] at hmem
    have := (List.mem_filter.1 hmem).2
    simpa using this
  · intro position rotY ob hmem hrep
    have hget : alget id (modelLoadFinished id true st).remotePlayersMap =
        some ⟨task.repId, false⟩ := by
      rw [hstate]
      exact alget_alset_self ..
    rw [updateRemotePlayer] at hmem
    rw [hget] at hmem
    simp only [setTransform, List.mem_map] at hmem
    obtain ⟨a, _, ha⟩ := hmem
    by_cases hcase : a.repId = task.repId
    · rw [if_pos hcase] at ha
      rw [← ha]
      exact ⟨rfl, rfl⟩
    · rw [if_neg hcase] at ha
      rw [← ha] at hrep
      exact absurd hrep hcase

/-- Witness for `swap_repoints_registry` at the concrete mid-load state. -/
theorem swap_repoints_registry_spot :
    alget "p" (modelLoadFinished "p" true c4midState).remotePlayersMap = some ⟨1, false⟩ ∧
    (∀ ob ∈ c4midState.scene, ob.repId = 1 → ob ∈ (modelLoadFinished "p" true c4midState).scene) ∧
    (∀ ob ∈ (modelLoadFinished "p" true c4midState).scene, ob.repId ≠ 0) ∧
    (∀ (position : Pos) (rotY : Int),
      ∀ ob ∈ (updateRemotePlayer "p" position rotY (modelLoadFinished "p" true c4midState)).scene,
        ob.repId = 1 → ob.position = position ∧ ob.rotationY = rotY) :=
  swap_repoints_registry c4midState "p" ⟨"p", 1⟩ ⟨0, true⟩
    (by decide) (by decide) (by decide)

/-! ## C8: the Open-to-InProgress transition and role recomputation -/

/-- C8 counterexample: `startGame` never checks `lobby.inGame`, so the
host can start the same lobby instance again — after the first start the
lobby is already `InProgress`, yet the second call succeeds and emits a
second `gameStarted` whose freshly drawn role assignment names a
*different* gorilla.  The claim that the role assignment is computed
exactly once per lobby instance is false. -/
theorem startGame_twice_reassigns_roles :
    (alget "L" c8afterFirst.lobbies).map SLobby.inGame = some true ∧
    (⟨Target.toRoom "L",
      Msg.gameStarted "L" [⟨"a", "Ann"⟩, ⟨"b", "Bob"⟩]
        [⟨"a", "Ann", true⟩, ⟨"b", "Bob", false⟩] "a" "Ann"⟩ : Emit) ∈
      (runOps initState c8trace).2 ∧
    (⟨Target.toRoom "L",
      Msg.gameStarted "L" [⟨"a", "Ann"⟩, ⟨"b", "Bob"⟩]
        [⟨"a", "Ann", false⟩, ⟨"b", "Bob", true⟩] "b" "Bob"⟩ : Emit) ∈
      (runOps initState c8trace).2 := by decide

/-- C8 amended: for a given lobby instance the `inGame` flag is never
reset — every operation either leaves an `InProgress` lobby `InProgress`
or destroys it (only re-creating a lobby under the same id, a new
instance, yields `inGame = false` again) — but the role assignment is *not*
computed at most once: `startGame` does not check `inGame`, so each
successful call, including calls on an already-`InProgress` lobby,
recomputes the assignment from its fresh random draw. -/
theorem inProgress_oneway_roles_per_call :
    (∀ (st : ServerState) (op : Op) (lid : String) (lobby : SLobby),
      alget lid st.lobbies = some lobby → lobby.inGame = true →
      opCreatesLobbyAt op lid = false →
      alget lid ((applyOp st op).1).lobbies = none ∨
      ∃ lobby' : SLobby, alget lid ((applyOp st op).1).lobbies = some lobby' ∧
        lobby'.inGame = true) ∧
    (∀ (st : ServerState) (sid lid : String) (lobby : SLobby) (r : Nat),
      alget sid st.playerLobbyMap = some lid →
      alget lid st.lobbies = some lobby →
      lobby.hostId = sid → 2 ≤ lobby.players.length → r < lobby.players.length →
      lobby.inGame = true →
      ∃ gp : LobbyMember, lobby.players.get? r = some gp ∧
        ((startGame sid r st).1).gorillaPlayerId = some gp.id ∧
        (⟨Target.toRoom lid,
          Msg.gameStarted lid lobby.players (buildRoles lobby.players 0 r)
            gp.id gp.name⟩ : Emit) ∈ (startGame sid r st).2) := by
  constructor
  · intro st op lid lobby hl hin hnc
    cases op with
    | connect sid =>
      exact Or.inr ⟨lobby, hl, hin⟩
    | createLobby sid nm mx pn nid =>
      have hne : nid ≠ lid := by simpa [opCreatesLobbyAt] using hnc
      by_cases hmap : (alget sid st.playerLobbyMap).isSome
      · simp only [applyOp, createLobby, hmap, if_true]
        exact Or.inr ⟨lobby, hl, hin⟩
      · simp only [applyOp, createLobby, hmap, if_false]
        refine Or.inr ⟨lobby, ?_, hin⟩
        show alget lid (alset nid _ st.lobbies) = some lobby
        rw [alget_alset_ne _ _ hne]
        exact hl
    | joinLobby sid lobbyId pn =>
      by_cases hmap : (alget sid st.playerLobbyMap).isSome
      · simp only [applyOp, joinLobby, hmap, if_true]
        exact Or.inr ⟨lobby, hl, hin⟩
      · by_cases heq : lobbyId = lid
        · subst heq
          simp only [applyOp, joinLobby, hmap, if_false, hl]
          by_cases hfull : lobby.maxPlayers ≤ lobby.players.length
          · simp only [hfull, if_true]
            exact Or.inr ⟨lobby, hl, hin⟩
          · simp only [hfull, if_false, hin, if_true]
            exact Or.inr ⟨lobby, hl, hin⟩
        · simp only [applyOp, joinLobby, hmap, if_false]
          cases hlk : alget lobbyId st.lobbies with
          | none => exact Or.inr ⟨lobby, hl, hin⟩
          | some other =>
            by_cases hfull : other.maxPlayers ≤ other.players.length
            · simp only [hfull, if_true]
              exact Or.inr ⟨lobby, hl, hin⟩
            · by_cases hg : other.inGame
              · simp only [hfull, if_false, hg, if_true]
                exact Or.inr ⟨lobby, hl, hin⟩
              · simp only [hfull, if_false, hg, if_false]
                refine Or.inr ⟨lobby, ?_, hin⟩
                show alget lid (alset lobbyId _ st.lobbies) = some lobby
                rw [alget_alset_ne _ _ heq]
                exact hl
    | leaveLobby sid =>
      cases hmap : alget sid st.playerLobbyMap with
      | none =>
        simp only [applyOp, leaveLobby, hmap]
        exact Or.inr ⟨lobby, hl, hin⟩
      | some lid2 =>
        cases hlk : alget lid2 st.lobbies with
        | none =>
          simp only [applyOp, leaveLobby, hmap, hlk]
          exact Or.inr ⟨lobby, hl, hin⟩
        | some lobby2 =>
          cases hrem : lobby2.players.filter (fun p => p.id ≠ sid) with
          | nil =>
            simp only [applyOp, leaveLobby, hmap, hlk, hrem]
            by_cases heq : lid2 = lid
            · subst heq
              exact Or.inl (alget_aldel_self ..)
            · refine Or.inr ⟨lobby, ?_, hin⟩
              show alget lid (aldel lid2 st.lobbies) = some lobby
              rw [alget_aldel_ne _ heq]
              exact hl
          | cons first rest =>
            by_cases heq : lid2 = lid
            · subst heq
              have : lobby2 = lobby := by
                rw [hlk] at hl
                exact Option.some.inj hl
              subst this
              by_cases hhost : lobby2.hostId = sid
              · simp only [applyOp, leaveLobby, hmap, hlk, hrem, hhost, if_true]
                exact Or.inr ⟨_, alget_alset_self .., hin⟩
              · simp only [applyOp, leaveLobby, hmap, hlk, hrem, hhost, if_false]
                exact Or.inr ⟨_, alget_alset_self .., hin⟩
            · by_cases hhost : lobby2.hostId = sid
              · simp only [applyOp, leaveLobby, hmap, hlk, hrem, hhost, if_true]
                refine Or.inr ⟨lobby, ?_, hin⟩
                show alget lid (alset lid2 _ st.lobbies) = some lobby
                rw [alget_alset_ne _ _ heq]
                exact hl
              · simp only [applyOp, leaveLobby, hmap, hlk, hrem, hhost, if_false]
                refine Or.inr ⟨lobby, ?_, hin⟩
                show alget lid (alset lid2 _ st.lobbies) = some lobby
                rw [alget_alset_ne _ _ heq]
                exact hl
    | kickPlayer sid targetId =>
      cases hmap : alget sid st.playerLobbyMap with
      | none =>
        simp only [applyOp, kickPlayer, hmap]
        exact Or.inr ⟨lobby, hl, hin⟩
      | some lid2 =>
        cases hlk : alget lid2 st.lobbies with
        | none =>
          simp only [applyOp, kickPlayer, hmap, hlk]
          exact Or.inr ⟨lobby, hl, hin⟩
        | some lobby2 =>
          by_cases hhost : lobby2.hostId ≠ sid
          · simp only [applyOp, kickPlayer, hmap, hlk]
            rw [if_pos hhost]
            exact Or.inr ⟨lobby, hl, hin⟩
          · by_cases hexist : lobby2.players.any (fun p => p.id == targetId)
            · simp only [applyOp, kickPlayer, hmap, hlk, hhost, if_false, hexist,
                not_true, if_false]
              by_cases heq : lid2 = lid
              · subst heq
                have : lobby2 = lobby := by
                  rw [hlk] at hl
                  exact Option.some.inj hl
                subst this
                exact Or.inr ⟨_, alget_alset_self .., hin⟩
              · refine Or.inr ⟨lobby, ?_, hin⟩
                show alget lid (alset lid2 _ st.lobbies) = some lobby
                rw [alget_alset_ne _ _ heq]
                exact hl
            · simp only [applyOp, kickPlayer, hmap, hlk, hhost, if_false, hexist,
                not_false_iff, if_true]
              exact Or.inr ⟨lobby, hl, hin⟩
    | startGame sid r =>
      cases hmap : alget sid st.playerLobbyMap with
      | none =>
        simp only [applyOp, startGame, hmap]
        exact Or.inr ⟨lobby, hl, hin⟩
      | some lid2 =>
        cases hlk : alget lid2 st.lobbies with
        | none =>
          simp only [applyOp, startGame, hmap, hlk]
          exact Or.inr ⟨lobby, hl, hin⟩
        | some lobby2 =>
          by_cases hhost : lobby2.hostId ≠ sid
          · simp only [applyOp, startGame, hmap, hlk]
            rw [if_pos hhost]
            exact Or.inr ⟨lobby, hl, hin⟩
          · by_cases hlen : lobby2.players.length < 2
            · simp only [applyOp, startGame, hmap, hlk, hhost, if_false, hlen, if_true]
              exact Or.inr ⟨lobby, hl, hin⟩
            · cases hget : lobby2.players.get? r with
              | none =>
                simp only [applyOp, startGame, hmap, hlk, hhost, if_false, hlen,
                  if_false, hget]
                exact Or.inr ⟨lobby, hl, hin⟩
              | some gp =>
                simp only [applyOp, startGame, hmap, hlk, hhost, if_false, hlen,
                  if_false, hget]
                by_cases heq : lid2 = lid
                · subst heq
                  exact Or.inr ⟨_, alget_alset_self .., rfl⟩
                · refine Or.inr ⟨lobby, ?_, hin⟩
                  show alget lid (alset lid2 _ st.lobbies) = some lobby
                  rw [alget_alset_ne _ _ heq]
                  exact hl
    | joinGame sid nm position rotation isG colorIndex =>
      cases hh : st.hostId with
      | none =>
        simp only [applyOp, joinGame, hh]
        exact Or.inr ⟨lobby, hl, hin⟩
      | some h0 =>
        simp only [applyOp, joinGame, hh]
        exact Or.inr ⟨lobby, hl, hin⟩
    | playerUpdate sid position rotation =>
      cases hp : alget sid st.players with
      | none =>
        simp only [applyOp, playerUpdate, hp]
        exact Or.inr ⟨lobby, hl, hin⟩
      | some p =>
        simp only [applyOp, playerUpdate, hp]
        exact Or.inr ⟨lobby, hl, hin⟩
    | disconnect sid =>
      have hpres := (disconnectPlayersCleanup_preserves sid (disconnectLobbyCleanup sid st).1).1
      have hgoal : alget lid ((applyOp st (Op.disconnect sid)).1).lobbies =
          alget lid ((disconnectLobbyCleanup sid st).1).lobbies := by
        show alget lid ((disconnect sid st).1).lobbies = _
        rw [show ((disconnect sid st).1).lobbies =
          ((disconnectLobbyCleanup sid st).1).lobbies from hpres]
      rw [hgoal]
      cases hmap : alget sid st.playerLobbyMap with
      | none =>
        simp only [disconnectLobbyCleanup, hmap]
        exact Or.inr ⟨lobby, hl, hin⟩
      | some lid2 =>
        cases hlk : alget lid2 st.lobbies with
        | none =>
          simp only [disconnectLobbyCleanup, hmap, hlk]
          exact Or.inr ⟨lobby, hl, hin⟩
        | some lobby2 =>
          cases hrem : lobby2.players.filter (fun p => p.id ≠ sid) with
          | nil =>
            simp only [disconnectLobbyCleanup, hmap, hlk, hrem]
            by_cases heq : lid2 = lid
            · subst heq
              exact Or.inl (alget_aldel_self ..)
            · refine Or.inr ⟨lobby, ?_, hin⟩
              show alget lid (aldel lid2 st.lobbies) = some lobby
              rw [alget_aldel_ne _ heq]
              exact hl
          | cons first rest =>
            by_cases heq : lid2 = lid
            · subst heq
              have : lobby2 = lobby := by
                rw [hlk] at hl
                exact Option.some.inj hl
              subst this
              by_cases hhost : lobby2.hostId = sid
              · simp only [disconnectLobbyCleanup, hmap, hlk, hrem, hhost, if_true]
                exact Or.inr ⟨_, alget_alset_self .., hin⟩
              · simp only [disconnectLobbyCleanup, hmap, hlk, hrem, hhost, if_false]
                exact Or.inr ⟨_, alget_alset_self .., hin⟩
            · by_cases hhost : lobby2.hostId = sid
              · simp only [disconnectLobbyCleanup, hmap, hlk, hrem, hhost, if_true]
                refine Or.inr ⟨lobby, ?_, hin⟩
                show alget lid (alset lid2 _ st.lobbies) = some lobby
                rw [alget_alset_ne _ _ heq]
                exact hl
              · simp only [disconnectLobbyCleanup, hmap, hlk, hrem, hhost, if_false]
                refine Or.inr ⟨lobby, ?_, hin⟩
                show alget lid (alset lid2 _ st.lobbies) = some lobby
                rw [alget_alset_ne _ _ heq]
                exact hl
  · intro st sid lid lobby r hm hl hh hn hr _
    obtain ⟨gp, hget, heq⟩ := startGame_success st sid lid lobby r hm hl hh hn hr
    refine ⟨gp, hget, ?_, ?_⟩
    · rw [heq]
    · rw [heq]
      exact List.mem_cons_self _ _

/-- Witness for `inProgress_oneway_roles_per_call`: the already-started
lobby of `c8afterFirst` survives a further `playerUpdate` as `InProgress`,
and a second `startGame` on it succeeds with a fresh draw. -/
theorem inProgress_oneway_roles_per_call_spot :
    (alget "L" ((applyOp c8afterFirst (Op.playerUpdate "a" ⟨1, 1, 1⟩ ⟨0⟩)).1).lobbies = none ∨
     ∃ lobby' : SLobby,
       alget "L" ((applyOp c8afterFirst (Op.playerUpdate "a" ⟨1, 1, 1⟩ ⟨0⟩)).1).lobbies =
         some lobby' ∧ lobby'.inGame = true) ∧
    (∃ gp : LobbyMember, c8lobby.players.get? 1 = some gp ∧
      ((startGame "a" 1 c8afterFirst).1).gorillaPlayerId = some gp.id ∧
      (⟨Target.toRoom "L",
        Msg.gameStarted "L" c8lobby.players (buildRoles c8lobby.players 0 1)
          gp.id gp.name⟩ : Emit) ∈ (startGame "a" 1 c8afterFirst).2) :=
  ⟨(inProgress_oneway_roles_per_call).1 c8afterFirst (Op.playerUpdate "a" ⟨1, 1, 1⟩ ⟨0⟩)
      "L" c8lobby (by decide) (by decide) (by decide),
   (inProgress_oneway_roles_per_call).2 c8afterFirst "a" "L" c8lobby 1
      (by decide) (by decide) (by decide) (by decide) (by decide) (by decide)⟩

/-! ## C1: lobby membership invariants -/

theorem map_id_filter (players : List LobbyMember) (sid : String) :
    (players.filter (fun p => p.id ≠ sid)).map (fun p => p.id) =
      (players.map (fun p => p.id)).filter (fun x => x ≠ sid) := by
  induction players with
  | nil => rfl
  | cons p rest ih =>
    simp only [List.filter_cons, List.map_cons]
    by_cases h : p.id = sid
    · rw [if_neg (by simp [h]), if_neg (by simp [h])]
      exact ih
    · rw [if_pos (by simp [h]), if_pos (by simp [h])]
      simp only [List.map_cons]
      rw [ih]

theorem mem_memberIds_of_any (lobby : SLobby) (tid : String)
    (h : lobby.players.any (fun p => p.id == tid) = true) :
    tid ∈ memberIds lobby := by
  obtain ⟨p, hp, hpt⟩ := List.any_eq_true.1 h
  have : p.id = tid := by simpa using hpt
  exact this ▸ List.mem_map_of_mem (fun q => q.id) hp

/-- `ServerInv` only reads `lobbies` and `playerLobbyMap`. -/
theorem serverInv_congr {s t : ServerState} (hl : t.lobbies = s.lobbies)
    (hm : t.playerLobbyMap = s.playerLobbyMap) (h : ServerInv s) : ServerInv t := by
  intro lid lobby hlk
  rw [hl] at hlk
  obtain ⟨a, b, c⟩ := h lid lobby hlk
  refine ⟨a, b, fun pid hp => ?_⟩
  rw [hm]
  exact c pid hp

theorem serverInv_createLobby (st : ServerState) (sid : String)
    (nm : Option String) (mx : Option Nat) (pn newLobbyId : String)
    (hInv : ServerInv st) : ServerInv (createLobby sid nm mx pn newLobbyId st).1 := by
  simp only [createLobby]
  split
  · exact hInv
  · rename_i hmap
    have hmn : alget sid st.playerLobbyMap = none := by
      cases hx : alget sid st.playerLobbyMap
      · rfl
      · rw [hx] at hmap
        exact absurd rfl hmap
    intro lid lobby hlk
    dsimp only at hlk
    dsimp only
    by_cases heq : newLobbyId = lid
    · subst heq
      rw [alget_alset_self] at hlk
      cases hlk
      refine ⟨by simp [memberIds], by simp [memberIds], ?_⟩
      intro pid hp
      simp only [memberIds, List.map_cons, List.map_nil, List.mem_singleton] at hp
      subst hp
      exact alget_alset_self ..
    · rw [alget_alset_ne _ _ heq] at hlk
      obtain ⟨a, b, c⟩ := hInv lid lobby hlk
      refine ⟨a, b, fun pid hp => ?_⟩
      have hpid : pid ≠ sid := by
        intro hcc
        subst hcc
        rw [c pid hp] at hmn
        cases hmn
      rw [alget_alset_ne _ _ (Ne.symm hpid)]
      exact c pid hp

theorem serverInv_joinLobby (st : ServerState) (sid lobbyId pn : String)
    (hInv : ServerInv st) : ServerInv (joinLobby sid lobbyId pn st).1 := by
  simp only [joinLobby]
  split
  · exact hInv
  · rename_i hmap
    have hmn : alget sid st.playerLobbyMap = none := by
      cases hx : alget sid st.playerLobbyMap
      · rfl
      · rw [hx] at hmap
        exact absurd rfl hmap
    cases hlk0 : alget lobbyId st.lobbies with
    | none =>
      simp only [hlk0]
      exact hInv
    | some lobbyT =>
      simp only [hlk0]
      by_cases hfull : lobbyT.maxPlayers ≤ lobbyT.players.length
      · rw [if_pos hfull]
        exact hInv
      · rw [if_neg hfull]
        by_cases hgame : lobbyT.inGame
        · rw [if_pos hgame]
          exact hInv
        · rw [if_neg hgame]
          obtain ⟨hndT, hhostT, hmapT⟩ := hInv lobbyId lobbyT hlk0
          have hsidT : sid ∉ memberIds lobbyT := by
            intro hmem
            rw [hmapT sid hmem] at hmn
            cases hmn
          intro lid lobby hlk
          dsimp only at hlk
          dsimp only
          by_cases heq : lobbyId = lid
          · subst heq
            rw [alget_alset_self] at hlk
            cases hlk
            have hmembers : memberIds
                { lobbyT with players := lobbyT.players ++ [⟨sid, pn⟩] } =
                memberIds lobbyT ++ [sid] := by
              simp [memberIds]
            refine ⟨?_, ?_, ?_⟩
            · rw [hmembers]
              refine List.Nodup.append hndT (by simp) ?_
              intro a ha hb
              rw [List.mem_singleton] at hb
              subst hb
              exact hsidT ha
            · rw [hmembers]
              show lobbyT.hostId ∈ _
              exact List.mem_append_left _ hhostT
            · intro pid hp
              rw [hmembers] at hp
              rcases List.mem_append.1 hp with hp1 | hp2
              · have hpid : pid ≠ sid := fun hcc => hsidT (hcc ▸ hp1)
                rw [alget_alset_ne _ _ (Ne.symm hpid)]
                exact hmapT pid hp1
              · rw [List.mem_singleton] at hp2
                subst hp2
                exact alget_alset_self ..
          · rw [alget_alset_ne _ _ heq] at hlk
            obtain ⟨a, b, c⟩ := hInv lid lobby hlk
            refine ⟨a, b, fun pid hp => ?_⟩
            have hpid : pid ≠ sid := by
              intro hcc
              subst hcc
              rw [c pid hp] at hmn
              cases hmn
            rw [alget_alset_ne _ _ (Ne.symm hpid)]
            exact c pid hp

theorem serverInv_leaveLobby (st : ServerState) (sid : String)
    (hInv : ServerInv st) : ServerInv (leaveLobby sid st).1 := by
  cases hm : alget sid st.playerLobbyMap with
  | none =>
    simp only [leaveLobby, hm]
    exact hInv
  | some lid2 =>
    cases hlk2 : alget lid2 st.lobbies with
    | none =>
      simp only [leaveLobby, hm, hlk2]
      exact hInv
    | some lobby2 =>
      obtain ⟨hnd2, hhost2, hmapc2⟩ := hInv lid2 lobby2 hlk2
      cases hrem : lobby2.players.filter (fun p => p.id ≠ sid) with
      | nil =>
        simp only [leaveLobby, hm, hlk2, hrem]
        intro lid lobby hlk
        dsimp only at hlk
        dsimp only
        by_cases heq : lid2 = lid
        · subst heq
          rw [alget_aldel_self] at hlk
          cases hlk
        · rw [alget_aldel_ne _ heq] at hlk
          obtain ⟨a, b, c⟩ := hInv lid lobby hlk
          refine ⟨a, b, fun pid hp => ?_⟩
          have hpid : pid ≠ sid := by
            intro hcc
            subst hcc
            rw [c pid hp] at hm
            exact heq (Option.some.inj hm.symm)
          rw [alget_aldel_ne _ (Ne.symm hpid)]
          exact c pid hp
      | cons first rest =>
        have hmem2 :
            memberIds { lobby2 with players := first :: rest, hostId := first.id } =
              (memberIds lobby2).filter (fun x => x ≠ sid) := by
          simp only [memberIds]
          rw [← map_id_filter, hrem]
        have hmem3 :
            memberIds { lobby2 with players := first :: rest } =
              (memberIds lobby2).filter (fun x => x ≠ sid) := by
          simp only [memberIds]
          rw [← map_id_filter, hrem]
        by_cases hhost : lobby2.hostId = sid
        · simp only [leaveLobby, hm, hlk2, hrem]
          rw [if_pos hhost]
          intro lid lobby hlk
          dsimp only at hlk
          dsimp only
          by_cases heq : lid2 = lid
          · subst heq
            rw [alget_alset_self] at hlk
            cases hlk
            refine ⟨?_, ?_, ?_⟩
            · rw [hmem2]
              exact List.Nodup.filter _ hnd2
            · show first.id ∈ memberIds { lobby2 with players := first :: rest, hostId := first.id }
              simp [memberIds]
            · intro pid hp
              rw [hmem2] at hp
              obtain ⟨hp1, hp2⟩ := List.mem_filter.1 hp
              have hpid : pid ≠ sid := by simpa using hp2
              rw [alget_aldel_ne _ (Ne.symm hpid)]
              exact hmapc2 pid hp1
          · rw [alget_alset_ne _ _ heq] at hlk
            obtain ⟨a, b, c⟩ := hInv lid lobby hlk
            refine ⟨a, b, fun pid hp => ?_⟩
            have hpid : pid ≠ sid := by
              intro hcc
              subst hcc
              rw [c pid hp] at hm
              exact heq (Option.some.inj hm.symm)
            rw [alget_aldel_ne _ (Ne.symm hpid)]
            exact c pid hp
        · simp only [leaveLobby, hm, hlk2, hrem]
          rw [if_neg hhost]
          intro lid lobby hlk
          dsimp only at hlk
          dsimp only
          by_cases heq : lid2 = lid
          · subst heq
            rw [alget_alset_self] at hlk
            cases hlk
            refine ⟨?_, ?_, ?_⟩
            · rw [hmem3]
              exact List.Nodup.filter _ hnd2
            · show lobby2.hostId ∈ memberIds { lobby2 with players := first :: rest }
              rw [hmem3]
              refine List.mem_filter.2 ⟨hhost2, ?_⟩
              simpa using hhost
            · intro pid hp
              rw [hmem3] at hp
              obtain ⟨hp1, hp2⟩ := List.mem_filter.1 hp
              have hpid : pid ≠ sid := by simpa using hp2
              rw [alget_aldel_ne _ (Ne.symm hpid)]
              exact hmapc2 pid hp1
          · rw [alget_alset_ne _ _ heq] at hlk
            obtain ⟨a, b, c⟩ := hInv lid lobby hlk
            refine ⟨a, b, fun pid hp => ?_⟩
            have hpid : pid ≠ sid := by
              intro hcc
              subst hcc
              rw [c pid hp] at hm
              exact heq (Option.some.inj hm.symm)
            rw [alget_aldel_ne _ (Ne.symm hpid)]
            exact c pid hp

theorem serverInv_disconnectLobbyCleanup (st : ServerState) (sid : String)
    (hInv : ServerInv st) : ServerInv (disconnectLobbyCleanup sid st).1 := by
  cases hm : alget sid st.playerLobbyMap with
  | none =>
    simp only [disconnectLobbyCleanup, hm]
    exact hInv
  | some lid2 =>
    cases hlk2 : alget lid2 st.lobbies with
    | none =>
      simp only [disconnectLobbyCleanup, hm, hlk2]
      exact hInv
    | some lobby2 =>
      obtain ⟨hnd2, hhost2, hmapc2⟩ := hInv lid2 lobby2 hlk2
      cases hrem : lobby2.players.filter (fun p => p.id ≠ sid) with
      | nil =>
        simp only [disconnectLobbyCleanup, hm, hlk2, hrem]
        intro lid lobby hlk
        dsimp only at hlk
        dsimp only
        by_cases heq : lid2 = lid
        · subst heq
          rw [alget_aldel_self] at hlk
          cases hlk
        · rw [alget_aldel_ne _ heq] at hlk
          obtain ⟨a, b, c⟩ := hInv lid lobby hlk
          refine ⟨a, b, fun pid hp => ?_⟩
          have hpid : pid ≠ sid := by
            intro hcc
            subst hcc
            rw [c pid hp] at hm
            exact heq (Option.some.inj hm.symm)
          rw [alget_aldel_ne _ (Ne.symm hpid)]
          exact c pid hp
      | cons first rest =>
        have hmem2 :
            memberIds { lobby2 with players := first :: rest, hostId := first.id } =
              (memberIds lobby2).filter (fun x => x ≠ sid) := by
          simp only [memberIds]
          rw [← map_id_filter, hrem]
        have hmem3 :
            memberIds { lobby2 with players := first :: rest } =
              (memberIds lobby2).filter (fun x => x ≠ sid) := by
          simp only [memberIds]
          rw [← map_id_filter, hrem]
        by_cases hhost : lobby2.hostId = sid
        · simp only [disconnectLobbyCleanup, hm, hlk2, hrem]
          rw [if_pos hhost]
          intro lid lobby hlk
          dsimp only at hlk
          dsimp only
          by_cases heq : lid2 = lid
          · subst heq
            rw [alget_alset_self] at hlk
            cases hlk
            refine ⟨?_, ?_, ?_⟩
            · rw [hmem2]
              exact List.Nodup.filter _ hnd2
            · show first.id ∈ memberIds { lobby2 with players := first :: rest, hostId := first.id }
              simp [memberIds]
            · intro pid hp
              rw [hmem2] at hp
              obtain ⟨hp1, hp2⟩ := List.mem_filter.1 hp
              have hpid : pid ≠ sid := by simpa using hp2
              rw [alget_aldel_ne _ (Ne.symm hpid)]
              exact hmapc2 pid hp1
          · rw [alget_alset_ne _ _ heq] at hlk
            obtain ⟨a, b, c⟩ := hInv lid lobby hlk
            refine ⟨a, b, fun pid hp => ?_⟩
            have hpid : pid ≠ sid := by
              intro hcc
              subst hcc
              rw [c pid hp] at hm
              exact heq (Option.some.inj hm.symm)
            rw [alget_aldel_ne _ (Ne.symm hpid)]
            exact c pid hp
        · simp only [disconnectLobbyCleanup, hm, hlk2, hrem]
          rw [if_neg hhost]
          intro lid lobby hlk
          dsimp only at hlk
          dsimp only
          by_cases heq : lid2 = lid
          · subst heq
            rw [alget_alset_self] at hlk
            cases hlk
            refine ⟨?_, ?_, ?_⟩
            · rw [hmem3]
              exact List.Nodup.filter _ hnd2
            · show lobby2.hostId ∈ memberIds { lobby2 with players := first :: rest }
              rw [hmem3]
              refine List.mem_filter.2 ⟨hhost2, ?_⟩
              simpa using hhost
            · intro pid hp
              rw [hmem3] at hp
              obtain ⟨hp1, hp2⟩ := List.mem_filter.1 hp
              have hpid : pid ≠ sid := by simpa using hp2
              rw [alget_aldel_ne _ (Ne.symm hpid)]
              exact hmapc2 pid hp1
          · rw [alget_alset_ne _ _ heq] at hlk
            obtain ⟨a, b, c⟩ := hInv lid lobby hlk
            refine ⟨a, b, fun pid hp => ?_⟩
            have hpid : pid ≠ sid := by
              intro hcc
              subst hcc
              rw [c pid hp] at hm
              exact heq (Option.some.inj hm.symm)
            rw [alget_aldel_ne _ (Ne.symm hpid)]
            exact c pid hp

theorem serverInv_kickPlayer (st : ServerState) (sid targetId : String)
    (hok : sid ≠ targetId) (hInv : ServerInv st) :
    ServerInv (kickPlayer sid targetId st).1 := by
  cases hm : alget sid st.playerLobbyMap with
  | none =>
    simp only [kickPlayer, hm]
    exact hInv
  | some lid2 =>
    cases hlk2 : alget lid2 st.lobbies with
    | none =>
      simp only [kickPlayer, hm, hlk2]
      exact hInv
    | some lobby2 =>
      obtain ⟨hnd2, hhost2, hmapc2⟩ := hInv lid2 lobby2 hlk2
      simp only [kickPlayer, hm, hlk2]
      by_cases hhost : lobby2.hostId ≠ sid
      · rw [if_pos hhost]
        exact hInv
      · rw [if_neg hhost]
        have hhost' : lobby2.hostId = sid := not_not.1 hhost
        by_cases hex : lobby2.players.any (fun p => p.id == targetId)
        · rw [if_neg (not_not_intro hex)]
          have hmemT : targetId ∈ memberIds lobby2 := mem_memberIds_of_any lobby2 targetId hex
          have hmem2 :
              memberIds { lobby2 with players := lobby2.players.filter (fun p => p.id ≠ targetId) } =
                (memberIds lobby2).filter (fun x => x ≠ targetId) := by
            simp only [memberIds]
            rw [map_id_filter]
          intro lid lobby hlk
          dsimp only at hlk
          dsimp only
          by_cases heq : lid2 = lid
          · subst heq
            rw [alget_alset_self] at hlk
            cases hlk
            refine ⟨?_, ?_, ?_⟩
            · rw [hmem2]
              exact List.Nodup.filter _ hnd2
            · show lobby2.hostId ∈ _
              rw [hmem2]
              refine List.mem_filter.2 ⟨hhost2, ?_⟩
              rw [hhost']
              simpa using hok
            · intro pid hp
              rw [hmem2] at hp
              obtain ⟨hp1, hp2⟩ := List.mem_filter.1 hp
              have hpid : pid ≠ targetId := by simpa using hp2
              rw [alget_aldel_ne _ (Ne.symm hpid)]
              exact hmapc2 pid hp1
          · rw [alget_alset_ne _ _ heq] at hlk
            obtain ⟨a, b, c⟩ := hInv lid lobby hlk
            refine ⟨a, b, fun pid hp => ?_⟩
            have hpid : pid ≠ targetId := by
              intro hcc
              subst hcc
              have h1 := c pid hp
              have h2 := hmapc2 pid hmemT
              rw [h1] at h2
              exact heq (Option.some.inj h2.symm)
            rw [alget_aldel_ne _ (Ne.symm hpid)]
            exact c pid hp
        · rw [if_pos hex]
          exact hInv

theorem serverInv_startGame (st : ServerState) (sid : String) (r : Nat)
    (hInv : ServerInv st) : ServerInv (startGame sid r st).1 := by
  cases hm : alget sid st.playerLobbyMap with
  | none =>
    simp only [startGame, hm]
    exact hInv
  | some lid2 =>
    cases hlk2 : alget lid2 st.lobbies with
    | none =>
      simp only [startGame, hm, hlk2]
      exact hInv
    | some lobby2 =>
      simp only [startGame, hm, hlk2]
      by_cases hhost : lobby2.hostId ≠ sid
      · rw [if_pos hhost]
        exact hInv
      · rw [if_neg hhost]
        by_cases hlen : lobby2.players.length < 2
        · rw [if_pos hlen]
          exact hInv
        · rw [if_neg hlen]
          cases hget : lobby2.players.get? r with
          | none => exact hInv
          | some gp =>
            intro lid lobby hlk
            dsimp only at hlk
            dsimp only
            by_cases heq : lid2 = lid
            · subst heq
              rw [alget_alset_self] at hlk
              cases hlk
              obtain ⟨a, b, c⟩ := hInv lid2 lobby2 hlk2
              exact ⟨a, b, c⟩
            · rw [alget_alset_ne _ _ heq] at hlk
              exact hInv lid lobby hlk

theorem serverInv_joinGame (st : ServerState) (sid nm : String)
    (position : Option Pos) (rotation : Option Rot) (isG : Option Bool)
    (colorIndex : Nat) (hInv : ServerInv st) :
    ServerInv (joinGame sid nm position rotation isG colorIndex st).1 := by
  cases hh : st.hostId with
  | none =>
    simp only [joinGame, hh]
    exact hInv
  | some h0 =>
    simp only [joinGame, hh]
    exact hInv

theorem serverInv_playerUpdate (st : ServerState) (sid : String)
    (position : Pos) (rotation : Rot) (hInv : ServerInv st) :
    ServerInv (playerUpdate sid position rotation st).1 := by
  cases hp : alget sid st.players with
  | none =>
    simp only [playerUpdate, hp]
    exact hInv
  | some p =>
    simp only [playerUpdate, hp]
    exact hInv

/-- The invariant survives every operation whose kick, if any, does not
name the requester as target. -/
theorem serverInv_step (st : ServerState) (op : Op)
    (hok : selfKick op = false) (hInv : ServerInv st) :
    ServerInv (applyOp st op).1 := by
  cases op with
  | connect sid => exact hInv
  | createLobby sid nm mx pn newLobbyId =>
    exact serverInv_createLobby st sid nm mx pn newLobbyId hInv
  | joinLobby sid lobbyId pn => exact serverInv_joinLobby st sid lobbyId pn hInv
  | leaveLobby sid => exact serverInv_leaveLobby st sid hInv
  | kickPlayer sid targetId =>
    have hne : sid ≠ targetId := by
      intro hcc
      subst hcc
      simp [selfKick] at hok
    exact serverInv_kickPlayer st sid targetId hne hInv
  | startGame sid r => exact serverInv_startGame st sid r hInv
  | joinGame sid nm position rotation isG colorIndex =>
    exact serverInv_joinGame st sid nm position rotation isG colorIndex hInv
  | playerUpdate sid position rotation =>
    exact serverInv_playerUpdate st sid position rotation hInv
  | disconnect sid =>
    have hpres := disconnectPlayersCleanup_preserves sid (disconnectLobbyCleanup sid st).1
    exact serverInv_congr hpres.1 hpres.2 (serverInv_disconnectLobbyCleanup st sid hInv)

theorem serverInv_ops (st : ServerState) (ops : List Op)
    (hok : ∀ op ∈ ops, selfKick op = false) (hInv : ServerInv st) :
    ServerInv (applyOps st ops) := by
  induction ops generalizing st with
  | nil => exact hInv
  | cons op rest ih =>
    have hstep := serverInv_step st op (hok op (List.mem_cons_self op rest)) hInv
    have : applyOps st (op :: rest) = applyOps (applyOp st op).1 rest := rfl
    rw [this]
    exact ih (applyOp st op).1 (fun o ho => hok o (List.mem_cons_of_mem op ho)) hstep

/-- The empty initial state satisfies the invariant vacuously. -/
theorem serverInv_init : ServerInv initState := by
  intro lid lobby hlk
  cases hlk

/-- C1 counterexample: the kick handler has no self-kick guard and never
reassigns the host — when host `"a"` kicks `"a"`, the surviving lobby's
`hostId` still names `"a"`, which is no longer a member, refuting the
claim for sequences that include a self-kick. -/
theorem kick_self_breaks_host_invariant :
    alget "L" c1cexState.lobbies = some c1cexLobby ∧
    c1cexLobby.hostId ∉ memberIds c1cexLobby := by decide

/-- C1 amended: for every sequence of operations from the empty state in
which no kick names its own requester as target, every existing lobby's
member list is duplicate-free and its `hostId` names a current member.
(`hostId` is never null for a lobby in this server: it is set at creation
and on every reassignment to some member's id.) -/
theorem lobby_nodup_and_host_member (ops : List Op)
    (hok : ∀ op ∈ ops, selfKick op = false) :
    ∀ (lid : String) (lobby : SLobby),
      alget lid (applyOps initState ops).lobbies = some lobby →
      (memberIds lobby).Nodup ∧ lobby.hostId ∈ memberIds lobby := by
  intro lid lobby hlk
  obtain ⟨a, b, _⟩ := serverInv_ops initState ops hok serverInv_init lid lobby hlk
  exact ⟨a, b⟩

/-- Witness for `lobby_nodup_and_host_member` on a concrete trace with a
(non-self) kick. -/
theorem lobby_nodup_and_host_member_spot :
    (memberIds c1okLobby).Nodup ∧ c1okLobby.hostId ∈ memberIds c1okLobby :=
  lobby_nodup_and_host_member c1okops (by decide) "L" c1okLobby (by decide)

/-! ## C5: disconnect during model load -/

theorem setTransform_shape (r : Nat) (p : Pos) (y : Int) (scene : List SceneObj) :
    ∀ ob ∈ setTransform r p y scene,
      ∃ ob0 ∈ scene, ob0.repId = ob.repId ∧ ob0.owner = ob.owner := by
  intro ob hob
  simp only [setTransform, List.mem_map] at hob
  obtain ⟨ob0, h0, heq⟩ := hob
  by_cases hr : ob0.repId = r
  · rw [if_pos hr] at heq
    refine ⟨ob0, h0, ?_, ?_⟩
    · rw [← heq]
    · rw [← heq]
  · rw [if_neg hr] at heq
    refine ⟨ob0, h0, ?_, ?_⟩
    · rw [heq]
    · rw [heq]

theorem mem_removeFirstTask_of_playerId_ne {id : String} {t : LoadTask}
    {l : List LoadTask} (h : t ∈ l) (hne : t.playerId ≠ id) :
    t ∈ removeFirstTask id l := by
  induction l with
  | nil => cases h
  | cons a rest ih =>
    by_cases ha : a.playerId = id
    · simp only [removeFirstTask, if_pos ha]
      rcases List.mem_cons.1 h with hcc | hmem
      · subst hcc
        exact absurd ha hne
      · exact hmem
    · simp only [removeFirstTask, if_neg ha]
      rcases List.mem_cons.1 h with hcc | hmem
      · subst hcc
        exact List.mem_cons_self _ _
      · exact List.mem_cons_of_mem _ (ih hmem)

theorem mem_removeFirstTask_of_ne {id : String} {task t : LoadTask}
    {l : List LoadTask} (hf : findTask l id = some task) (h : t ∈ l)
    (hne : t ≠ task) : t ∈ removeFirstTask id l := by
  induction l with
  | nil => cases h
  | cons a rest ih =>
    by_cases ha : a.playerId = id
    · have hb : (a.playerId == id) = true := by simpa using ha
      have hfa : findTask (a :: rest) id = some a := by
        simp [findTask, List.find?, hb]
      rw [hfa] at hf
      have hta : task = a := (Option.some.inj hf).symm
      simp only [removeFirstTask, if_pos ha]
      rcases List.mem_cons.1 h with hcc | hmem
      · subst hcc
        exact absurd hta.symm hne
      · exact hmem
    · have hb : (a.playerId == id) = false := by simpa using ha
      have hfa : findTask (a :: rest) id = findTask rest id := by
        simp [findTask, List.find?, hb]
      rw [hfa] at hf
      simp only [removeFirstTask, if_neg ha]
      rcases List.mem_cons.1 h with hcc | hmem
      · subst hcc
        exact List.mem_cons_self _ _
      · exact List.mem_cons_of_mem _ (ih hf hmem)

theorem trackedInv_step (s : String) (st : ClientState) (ev : CEvent)
    (hnt : isLoadFinishFor s ev = false) (hInv : TrackedInv s st) :
    TrackedInv s (applyCEvent st ev) := by
  cases ev with
  | playerJoined id p y =>
    show TrackedInv s (addRemotePlayer id p y st)
    cases he : alget id st.remotePlayersMap with
    | some entry =>
      have hstate : addRemotePlayer id p y st =
          { st with scene := setTransform entry.playerRep p y st.scene } := by
        simp [addRemotePlayer, he]
      rw [hstate]
      intro ob hob hos
      obtain ⟨ob0, h0, hrep, hown⟩ := setTransform_shape _ _ _ _ ob hob
      rcases hInv ob0 h0 (by rw [hown, hos]) with ⟨e, he2, hp⟩ | ⟨t, ht, hts, htr⟩
      · exact Or.inl ⟨e, he2, by rw [hp, hrep]⟩
      · exact Or.inr ⟨t, ht, hts, by rw [htr, hrep]⟩
    | none =>
      have hstate : addRemotePlayer id p y st =
          { st with
            scene := st.scene ++
              [⟨st.nextRepId, id, p, y⟩, ⟨st.nextRepId + 1, id, p, y⟩],
            remotePlayersMap := alset id ⟨st.nextRepId, true⟩ st.remotePlayersMap,
            pendingLoads := st.pendingLoads ++ [⟨id, st.nextRepId + 1⟩],
            nextRepId := st.nextRepId + 2 } := by
        simp [addRemotePlayer, he]
      rw [hstate]
      intro ob hob hos
      dsimp only at hob
      rcases List.mem_append.1 hob with hmem | hnew
      · rcases hInv ob hmem hos with ⟨e, he2, hp⟩ | ⟨t, ht, hts, htr⟩
        · have hsid : s ≠ id := by
            intro hcc
            rw [← hcc] at he
            rw [he] at he2
            cases he2
          refine Or.inl ⟨e, ?_, hp⟩
          rw [alget_alset_ne _ _ (Ne.symm hsid)]
          exact he2
        · exact Or.inr ⟨t, List.mem_append_left _ ht, hts, htr⟩
      · simp only [List.mem_cons, List.not_mem_nil, or_false] at hnew
        rcases hnew with h1 | h1
        · subst h1
          have hids : id = s := hos
          subst hids
          exact Or.inl ⟨⟨st.nextRepId, true⟩, alget_alset_self .., rfl⟩
        · subst h1
          have hids : id = s := hos
          subst hids
          refine Or.inr ⟨⟨id, st.nextRepId + 1⟩, ?_, rfl, rfl⟩
          exact List.mem_append_right _ (List.mem_singleton.2 rfl)
  | playerMoved id p y =>
    show TrackedInv s (updateRemotePlayer id p y st)
    cases he : alget id st.remotePlayersMap with
    | none =>
      have hstate : updateRemotePlayer id p y st = st := by
        simp [updateRemotePlayer, he]
      rw [hstate]
      exact hInv
    | some entry =>
      have hstate : updateRemotePlayer id p y st =
          { st with scene := setTransform entry.playerRep p y st.scene } := by
        simp [updateRemotePlayer, he]
      rw [hstate]
      intro ob hob hos
      obtain ⟨ob0, h0, hrep, hown⟩ := setTransform_shape _ _ _ _ ob hob
      rcases hInv ob0 h0 (by rw [hown, hos]) with ⟨e, he2, hp⟩ | ⟨t, ht, hts, htr⟩
      · exact Or.inl ⟨e, he2, by rw [hp, hrep]⟩
      · exact Or.inr ⟨t, ht, hts, by rw [htr, hrep]⟩
  | modelLoadFinished id b =>
    have hid : id ≠ s := by simpa [isLoadFinishFor] using hnt
    show TrackedInv s (modelLoadFinished id b st)
    cases hf : findTask st.pendingLoads id with
    | none =>
      have hstate : modelLoadFinished id b st = st := by
        simp [modelLoadFinished, hf]
      rw [hstate]
      exact hInv
    | some task =>
      cases he : alget id st.remotePlayersMap with
      | none =>
        have hstate : modelLoadFinished id b st =
            { st with
              scene := st.scene.filter (fun ob => ob.repId ≠ task.repId),
              pendingLoads := removeFirstTask id st.pendingLoads } := by
          simp [modelLoadFinished, hf, he]
        rw [hstate]
        intro ob hob hos
        have hob' := (List.mem_filter.1 hob).1
        rcases hInv ob hob' hos with ⟨e, he2, hp⟩ | ⟨t, ht, hts, htr⟩
        · exact Or.inl ⟨e, he2, hp⟩
        · refine Or.inr ⟨t, ?_, hts, htr⟩
          refine mem_removeFirstTask_of_playerId_ne ht ?_
          rw [hts]
          exact Ne.symm hid
      | some entry =>
        cases b with
        | true =>
          have hstate : modelLoadFinished id true st =
              { st with
                scene := st.scene.filter (fun ob => ob.repId ≠ entry.playerRep),
                remotePlayersMap := alset id ⟨task.repId, false⟩ st.remotePlayersMap,
                pendingLoads := removeFirstTask id st.pendingLoads } := by
            simp [modelLoadFinished, hf, he]
          rw [hstate]
          intro ob hob hos
          have hob' := (List.mem_filter.1 hob).1
          rcases hInv ob hob' hos with ⟨e, he2, hp⟩ | ⟨t, ht, hts, htr⟩
          · refine Or.inl ⟨e, ?_, hp⟩
            rw [alget_alset_ne _ _ hid]
            exact he2
          · refine Or.inr ⟨t, ?_, hts, htr⟩
            refine mem_removeFirstTask_of_playerId_ne ht ?_
            rw [hts]
            exact Ne.symm hid
        | false =>
          have hstate : modelLoadFinished id false st =
              { st with
                remotePlayersMap := alset id ⟨task.repId, false⟩ st.remotePlayersMap,
                pendingLoads := removeFirstTask id st.pendingLoads } := by
            simp [modelLoadFinished, hf, he]
          rw [hstate]
          intro ob hob hos
          rcases hInv ob hob hos with ⟨e, he2, hp⟩ | ⟨t, ht, hts, htr⟩
          · refine Or.inl ⟨e, ?_, hp⟩
            rw [alget_alset_ne _ _ hid]
            exact he2
          · refine Or.inr ⟨t, ?_, hts, htr⟩
            refine mem_removeFirstTask_of_playerId_ne ht ?_
            rw [hts]
            exact Ne.symm hid
  | playerLeft id =>
    show TrackedInv s (removeRemotePlayer id st)
    cases he : alget id st.remotePlayersMap with
    | none =>
      have hstate : removeRemotePlayer id st = st := by
        simp [removeRemotePlayer, he]
      rw [hstate]
      exact hInv
    | some entry =>
      have hstate : removeRemotePlayer id st =
          { st with
            scene := st.scene.filter (fun ob => ob.repId ≠ entry.playerRep),
            remotePlayersMap := aldel id st.remotePlayersMap } := by
        simp [removeRemotePlayer, he]
      rw [hstate]
      intro ob hob hos
      obtain ⟨hmem, hrep⟩ := List.mem_filter.1 hob
      have hrep' : ob.repId ≠ entry.playerRep := by simpa using hrep
      rcases hInv ob hmem hos with ⟨e, he2, hp⟩ | ⟨t, ht, hts, htr⟩
      · by_cases hids : id = s
        · subst hids
          rw [he] at he2
          cases he2
          exact absurd hp.symm hrep'
        · refine Or.inl ⟨e, ?_, hp⟩
          rw [alget_aldel_ne _ hids]
          exact he2
      · exact Or.inr ⟨t, ht, hts, htr⟩

theorem detached_after_remove (s : String) (st : ClientState)
    (hInv : TrackedInv s st) : DetachedInv s (removeRemotePlayer s st) := by
  cases he : alget s st.remotePlayersMap with
  | none =>
    have hstate : removeRemotePlayer s st = st := by
      simp [removeRemotePlayer, he]
    rw [hstate]
    refine ⟨he, fun ob hob hos => ?_⟩
    rcases hInv ob hob hos with ⟨e, he2, _⟩ | h
    · rw [he] at he2
      cases he2
    · exact h
  | some entry =>
    have hstate : removeRemotePlayer s st =
        { st with
          scene := st.scene.filter (fun ob => ob.repId ≠ entry.playerRep),
          remotePlayersMap := aldel s st.remotePlayersMap } := by
      simp [removeRemotePlayer, he]
    rw [hstate]
    refine ⟨alget_aldel_self .., fun ob hob hos => ?_⟩
    obtain ⟨hmem, hrep⟩ := List.mem_filter.1 hob
    have hrep' : ob.repId ≠ entry.playerRep := by simpa using hrep
    rcases hInv ob hmem hos with ⟨e, he2, hp⟩ | h
    · rw [he] at he2
      cases he2
      exact absurd hp.symm hrep'
    · exact h

theorem detachedInv_step (s : String) (st : ClientState) (ev : CEvent)
    (hnj : isJoinFor s ev = false) (hInv : DetachedInv s st) :
    DetachedInv s (applyCEvent st ev) := by
  obtain ⟨hmapn, htrack⟩ := hInv
  cases ev with
  | playerJoined id p y =>
    have hid : id ≠ s := by simpa [isJoinFor] using hnj
    show DetachedInv s (addRemotePlayer id p y st)
    cases he : alget id st.remotePlayersMap with
    | some entry =>
      have hstate : addRemotePlayer id p y st =
          { st with scene := setTransform entry.playerRep p y st.scene } := by
        simp [addRemotePlayer, he]
      rw [hstate]
      refine ⟨hmapn, fun ob hob hos => ?_⟩
      obtain ⟨ob0, h0, hrep, hown⟩ := setTransform_shape _ _ _ _ ob hob
      obtain ⟨t, ht, hts, htr⟩ := htrack ob0 h0 (by rw [hown, hos])
      exact ⟨t, ht, hts, by rw [htr, hrep]⟩
    | none =>
      have hstate : addRemotePlayer id p y st =
          { st with
            scene := st.scene ++
              [⟨st.nextRepId, id, p, y⟩, ⟨st.nextRepId + 1, id, p, y⟩],
            remotePlayersMap := alset id ⟨st.nextRepId, true⟩ st.remotePlayersMap,
            pendingLoads := st.pendingLoads ++ [⟨id, st.nextRepId + 1⟩],
            nextRepId := st.nextRepId + 2 } := by
        simp [addRemotePlayer, he]
      rw [hstate]
      refine ⟨?_, fun ob hob hos => ?_⟩
      · show alget s (alset id _ st.remotePlayersMap) = none
        rw [alget_alset_ne _ _ hid]
        exact hmapn
      · dsimp only at hob
        rcases List.mem_append.1 hob with hmem | hnew
        · obtain ⟨t, ht, hts, htr⟩ := htrack ob hmem hos
          exact ⟨t, List.mem_append_left _ ht, hts, htr⟩
        · simp only [List.mem_cons, List.not_mem_nil, or_false] at hnew
          rcases hnew with h1 | h1
          · subst h1
            exact absurd hos hid
          · subst h1
            exact absurd hos hid
  | playerMoved id p y =>
    show DetachedInv s (updateRemotePlayer id p y st)
    cases he : alget id st.remotePlayersMap with
    | none =>
      have hstate : updateRemotePlayer id p y st = st := by
        simp [updateRemotePlayer, he]
      rw [hstate]
      exact ⟨hmapn, htrack⟩
    | some entry =>
      have hstate : updateRemotePlayer id p y st =
          { st with scene := setTransform entry.playerRep p y st.scene } := by
        simp [updateRemotePlayer, he]
      rw [hstate]
      refine ⟨hmapn, fun ob hob hos => ?_⟩
      obtain ⟨ob0, h0, hrep, hown⟩ := setTransform_shape _ _ _ _ ob hob
      obtain ⟨t, ht, hts, htr⟩ := htrack ob0 h0 (by rw [hown, hos])
      exact ⟨t, ht, hts, by rw [htr, hrep]⟩
  | modelLoadFinished id b =>
    show DetachedInv s (modelLoadFinished id b st)
    cases hf : findTask st.pendingLoads id with
    | none =>
      have hstate : modelLoadFinished id b st = st := by
        simp [modelLoadFinished, hf]
      rw [hstate]
      exact ⟨hmapn, htrack⟩
    | some task =>
      by_cases hids : id = s
      · subst hids
        have hstate : modelLoadFinished id b st =
            { st with
              scene := st.scene.filter (fun ob => ob.repId ≠ task.repId),
              pendingLoads := removeFirstTask id st.pendingLoads } := by
          simp [modelLoadFinished, hf, hmapn]
        rw [hstate]
        refine ⟨hmapn, fun ob hob hos => ?_⟩
        obtain ⟨hmem, hrep⟩ := List.mem_filter.1 hob
        have hrep' : ob.repId ≠ task.repId := by simpa using hrep
        obtain ⟨t, ht, hts, htr⟩ := htrack ob hmem hos
        have htne : t ≠ task := by
          intro hcc
          subst hcc
          exact hrep' htr.symm
        exact ⟨t, mem_removeFirstTask_of_ne hf ht htne, hts, htr⟩
      · cases he : alget id st.remotePlayersMap with
        | none =>
          have hstate : modelLoadFinished id b st =
              { st with
                scene := st.scene.filter (fun ob => ob.repId ≠ task.repId),
                pendingLoads := removeFirstTask id st.pendingLoads } := by
            simp [modelLoadFinished, hf, he]
          rw [hstate]
          refine ⟨hmapn, fun ob hob hos => ?_⟩
          obtain ⟨hmem, _⟩ := List.mem_filter.1 hob
          obtain ⟨t, ht, hts, htr⟩ := htrack ob hmem hos
          refine ⟨t, ?_, hts, htr⟩
          refine mem_removeFirstTask_of_playerId_ne ht ?_
          rw [hts]
          exact fun hcc => hids hcc.symm
        | some entry =>
          cases b with
          | true =>
            have hstate : modelLoadFinished id true st =
                { st with
                  scene := st.scene.filter (fun ob => ob.repId ≠ entry.playerRep),
                  remotePlayersMap := alset id ⟨task.repId, false⟩ st.remotePlayersMap,
                  pendingLoads := removeFirstTask id st.pendingLoads } := by
              simp [modelLoadFinished, hf, he]
            rw [hstate]
            refine ⟨?_, fun ob hob hos => ?_⟩
            · show alget s (alset id _ st.remotePlayersMap) = none
              rw [alget_alset_ne _ _ hids]
              exact hmapn
            · obtain ⟨hmem, _⟩ := List.mem_filter.1 hob
              obtain ⟨t, ht, hts, htr⟩ := htrack ob hmem hos
              refine ⟨t, ?_, hts, htr⟩
              refine mem_removeFirstTask_of_playerId_ne ht ?_
              rw [hts]
              exact fun hcc => hids hcc.symm
          | false =>
            have hstate : modelLoadFinished id false st =
                { st with
                  remotePlayersMap := alset id ⟨task.repId, false⟩ st.remotePlayersMap,
                  pendingLoads := removeFirstTask id st.pendingLoads } := by
              simp [modelLoadFinished, hf, he]
            rw [hstate]
            refine ⟨?_, fun ob hob hos => ?_⟩
            · show alget s (alset id _ st.remotePlayersMap) = none
              rw [alget_alset_ne _ _ hids]
              exact hmapn
            · obtain ⟨t, ht, hts, htr⟩ := htrack ob hob hos
              refine ⟨t, ?_, hts, htr⟩
              refine mem_removeFirstTask_of_playerId_ne ht ?_
              rw [hts]
              exact fun hcc => hids hcc.symm
  | playerLeft id =>
    show DetachedInv s (removeRemotePlayer id st)
    cases he : alget id st.remotePlayersMap with
    | none =>
      have hstate : removeRemotePlayer id st = st := by
        simp [removeRemotePlayer, he]
      rw [hstate]
      exact ⟨hmapn, htrack⟩
    | some entry =>
      have hids : id ≠ s := by
        intro hcc
        subst hcc
        rw [he] at hmapn
        cases hmapn
      have hstate : removeRemotePlayer id st =
          { st with
            scene := st.scene.filter (fun ob => ob.repId ≠ entry.playerRep),
            remotePlayersMap := aldel id st.remotePlayersMap } := by
        simp [removeRemotePlayer, he]
      rw [hstate]
      refine ⟨?_, fun ob hob hos => ?_⟩
      · show alget s (aldel id st.remotePlayersMap) = none
        rw [alget_aldel_ne _ hids]
        exact hmapn
      · obtain ⟨hmem, _⟩ := List.mem_filter.1 hob
        exact htrack ob hmem hos

theorem trackedInv_events (s : String) (st : ClientState) (evs : List CEvent)
    (h : ∀ ev ∈ evs, isLoadFinishFor s ev = false) (hInv : TrackedInv s st) :
    TrackedInv s (applyCEvents st evs) := by
  induction evs generalizing st with
  | nil => exact hInv
  | cons ev rest ih =>
    have hstep := trackedInv_step s st ev (h ev (List.mem_cons_self ev rest)) hInv
    exact ih (applyCEvent st ev) (fun e hee => h e (List.mem_cons_of_mem ev hee)) hstep

theorem detachedInv_events (s : String) (st : ClientState) (evs : List CEvent)
    (h : ∀ ev ∈ evs, isJoinFor s ev = false) (hInv : DetachedInv s st) :
    DetachedInv s (applyCEvents st evs) := by
  induction evs generalizing st with
  | nil => exact hInv
  | cons ev rest ih =>
    have hstep := detachedInv_step s st ev (h ev (List.mem_cons_self ev rest)) hInv
    exact ih (applyCEvent st ev) (fun e hee => h e (List.mem_cons_of_mem ev hee)) hstep

/-- C5: if session `s` is removed (`playerLeft`) before its model load
completes — no `modelLoadFinished` for `s` precedes the removal — and `s`
never re-joins afterwards (server session ids are unique per connection),
then once loading finishes (no in-flight load for `s` remains in the final
state) no scene representation of `s` exists, and `s` has no registry
entry: the loader's registry check discards the loaded result instead of
inserting an orphan. -/
theorem removed_session_leaves_no_orphan (pre post : List CEvent) (s : String)
    (hpre : ∀ ev ∈ pre, isLoadFinishFor s ev = false)
    (hpost : ∀ ev ∈ post, isJoinFor s ev = false)
    (hdone : ∀ t ∈
      (applyCEvents initClientState (pre ++ CEvent.playerLeft s :: post)).pendingLoads,
      t.playerId ≠ s) :
    (∀ ob ∈ (applyCEvents initClientState (pre ++ CEvent.playerLeft s :: post)).scene,
      ob.owner ≠ s) ∧
    alget s (applyCEvents initClientState
      (pre ++ CEvent.playerLeft s :: post)).remotePlayersMap = none := by
  have hinit : TrackedInv s initClientState := by
    intro ob hob
    cases hob
  have h1 : TrackedInv s (applyCEvents initClientState pre) :=
    trackedInv_events s initClientState pre hpre hinit
  have h2 : DetachedInv s (applyCEvent (applyCEvents initClientState pre)
      (CEvent.playerLeft s)) :=
    detached_after_remove s (applyCEvents initClientState pre) h1
  have hsplit : applyCEvents initClientState (pre ++ CEvent.playerLeft s :: post) =
      applyCEvents (applyCEvent (applyCEvents initClientState pre)
        (CEvent.playerLeft s)) post := by
    simp [applyCEvents, List.foldl_append]
  have h3 : DetachedInv s (applyCEvents initClientState
      (pre ++ CEvent.playerLeft s :: post)) := by
    rw [hsplit]
    exact detachedInv_events s _ post hpost h2
  obtain ⟨hmapn, htrack⟩ := h3
  refine ⟨fun ob hob hos => ?_, hmapn⟩
  obtain ⟨t, ht, hts, _⟩ := htrack ob hob hos
  exact hdone t ht hts

/-- Witness for `removed_session_leaves_no_orphan`: `"p"` joins, leaves
while its load is pending, and the load then finishes — no group owned by
`"p"` remains. -/
theorem removed_session_leaves_no_orphan_spot :
    (∀ ob ∈ (applyCEvents initClientState
        ([CEvent.playerJoined "p" ⟨1, 2, 3⟩ 0] ++ CEvent.playerLeft "p" ::
          [CEvent.modelLoadFinished "p" true])).scene,
      ob.owner ≠ "p") ∧
    alget "p" (applyCEvents initClientState
      ([CEvent.playerJoined "p" ⟨1, 2, 3⟩ 0] ++ CEvent.playerLeft "p" ::
        [CEvent.modelLoadFinished "p" true])).remotePlayersMap = none :=
  removed_session_leaves_no_orphan
    [CEvent.playerJoined "p" ⟨1, 2, 3⟩ 0]
    [CEvent.modelLoadFinished "p" true] "p"
    (by decide) (by decide) (by decide)

end Gorilla
